import Mathlib

/-!
Verification of the trelliscope-py inference and metadata-modeling subsystem.

This file shallowly embeds the data model and the operations of the
`trelliscope` Python package (files `utils.py`, `metas.py`, `state.py`,
`panels.py`, `trelliscope.py`) and proves properties of that embedding.

Modeling conventions:
 * A pandas `Series` (dataframe column) is a `Column`: a dtype tag plus a
   list of cell values.  Cell values are a closed sum of the value kinds the
   source inspects: strings, numbers, plotly `Figure` objects and other
   opaque objects (the latter two identified by an id).
 * A pandas `DataFrame` is an ordered association list of named columns plus
   the list of group-by index names (empty = trivial RangeIndex).
 * Python `dict` / `OrderedDict` objects are ordered association lists.
 * Methods that mutate Python objects in place are translated to explicit
   state passing: a method on `self` returns the post-call value of `self`
   together with its result, so a "never mutates self" contract becomes a
   first-component equation.  `copy.deepcopy` is the identity on values.
 * Object identity (Python `is`) is modeled by an allocation id: a `TrObj`
   is a `Trelliscope` value paired with an id, and `deepcopy` allocates a
   fresh id from a counter threaded through the call.
 * Python exceptions are modeled with `Except String`; the message text is
   reproduced where a claim depends on it.
 * The repository requires pandas >= 2 (it calls `pd.to_datetime` with
   `format="mixed"`); `pandas.api.types.is_string_dtype` therefore treats
   object-dtype data as string dtype only when the elements themselves are
   strings, which is how `is_string_dtype` is modeled below.
-/

/-- Dtype of a pandas column, as far as the source inspects it. -/
inductive Dtype where
  | objectDt
  | numericDt
  | categoryDt
  | datetimeDt
  deriving DecidableEq, Repr

/-- One cell of a dataframe column.  `figureV`/`objV` stand for plotly
`Figure` objects and other opaque Python objects, identified by an id. -/
inductive CellValue where
  | strV (s : String)
  | numV (n : Int)
  | figureV (fid : Nat)
  | objV (oid : Nat)
  deriving DecidableEq, Repr

/-- Is this cell a Python `str`? -/
def CellValue.isStr : CellValue → Bool
  | .strV _ => true
  | _ => false

/-- Is this cell a plotly `Figure`? -/
def CellValue.isFigure : CellValue → Bool
  | .figureV _ => true
  | _ => false

/-- Is this cell numeric? -/
def CellValue.isNum : CellValue → Bool
  | .numV _ => true
  | _ => false

/-- A pandas `Series`: dtype tag, cell values, and (for category dtype)
the category levels (`Series.cat.categories`). -/
structure Column where
  dtype : Dtype
  values : List CellValue
  categories : List String := []
  deriving DecidableEq, Repr

/-- A pandas `DataFrame`: ordered named columns plus the names of the
group-by index levels (`df.index.names`; empty list = trivial index). -/
structure DataFrame where
  cols : List (String × Column)
  groupedBy : List String := []
  deriving DecidableEq, Repr

/-- Column lookup, `df[name]` (first match, as for unique pandas labels). -/
def DataFrame.lookup (df : DataFrame) (name : String) : Option Column :=
  (df.cols.find? (fun p => p.1 = name)).map (fun p => p.2)

/-- `df.columns` as a list of names. -/
def DataFrame.names (df : DataFrame) : List String :=
  df.cols.map (fun p => p.1)

/-- Number of rows (length of the first column; all columns share it). -/
def DataFrame.nrows (df : DataFrame) : Nat :=
  match df.cols with
  | [] => 0
  | c :: _ => c.2.values.length

/-- `pandas.api.types.is_numeric_dtype`. -/
def is_numeric_dtype (c : Column) : Bool :=
  c.dtype = Dtype.numericDt

/-- `pandas.api.types.is_object_dtype`. -/
def is_object_dtype (c : Column) : Bool :=
  c.dtype = Dtype.objectDt

/-- `pandas.api.types.is_string_dtype` under pandas >= 2 semantics: for
object-dtype data the elements must themselves be inferred as strings. -/
def is_string_dtype (c : Column) : Bool :=
  c.dtype = Dtype.objectDt && c.values.all CellValue.isStr

/-- `utils.is_string_column`: string dtype, not categorical, and the first
value is actually a `str` (the source probes `column[0]`; on an empty
column Python would raise, modeled here as `false`). -/
def is_string_column (c : Column) : Bool :=
  is_string_dtype c && !(c.dtype = Dtype.categoryDt) &&
    (match c.values.head? with
     | some v => v.isStr
     | none => false)

/-- `utils.is_figure_column`: the first value is a plotly `Figure` and then
every value is. -/
def is_figure_column (df : DataFrame) (col : String) : Bool :=
  match df.lookup col with
  | none => false
  | some c =>
    match c.values.head? with
    | some v => v.isFigure && c.values.all CellValue.isFigure
    | none => false

/-- `utils.find_figure_columns`: object-dtype columns whose values are all
`Figure` objects, in dataframe column order. -/
def find_figure_columns (df : DataFrame) : List String :=
  ((df.cols.filter (fun p => is_object_dtype p.2)).filter
    (fun p => is_figure_column df p.1)).map (fun p => p.1)

/-- Split a character list on a separator character (kernel-reducible
counterpart of `String.splitOn` for one-character separators). -/
def splitOnChar (sep : Char) : List Char → List (List Char)
  | [] => [[]]
  | c :: rest =>
    let r := splitOnChar sep rest
    if c = sep then [] :: r
    else
      match r with
      | [] => [[c]]
      | h :: t => (c :: h) :: t

/-- Last path component of a string path (POSIX separator), as
`pathlib.Path(item).name`. -/
def lastPathComponent (s : String) : List Char :=
  (splitOnChar '/' s.data).getLastD s.data

/-- `utils.get_extension`: `pathlib.Path(item).suffix` with the leading dot
removed.  `pathlib` yields an empty suffix when there is no dot, when the
only dot is the leading character of the name, or when the name ends in the
dot. -/
def get_extension (item : String) : String :=
  let nm := lastPathComponent item
  match splitOnChar '.' nm with
  | [] => ""
  | [_] => ""
  | first :: rest =>
    if first = [] ∧ rest.length = 1 then ""
    else String.mk (rest.getLastD [])

/-- The fixed image-extension whitelist (`utils.valid_image_extensions`). -/
def valid_image_extensions : List String :=
  ["apng", "avif", "gif", "jpg", "jpeg", "jfif", "pjpeg", "pjp", "png", "svg", "webp"]

/-- `str.lower()` (kernel-reducible counterpart of `String.toLower`). -/
def strLower (s : String) : String :=
  String.mk (s.data.map Char.toLower)

/-- `utils._extension_matches` with the default `match_case=False`. -/
def extension_matches (text : String) (extToMatch : String) : Bool :=
  strLower (get_extension text) = strLower extToMatch

/-- `_extension_matches` lifted to a cell; the source only applies it to
string cells (on anything else Python would raise). -/
def cell_extension_matches (v : CellValue) (extToMatch : String) : Bool :=
  match v with
  | .strV s => extension_matches s extToMatch
  | _ => false

/-- `utils.is_image_column`: the first value's extension is in the
whitelist (exact, case-sensitive membership) and every value's extension
matches it case-insensitively. -/
def is_image_column (df : DataFrame) (col : String) : Bool :=
  match df.lookup col with
  | none => false
  | some c =>
    match c.values.head? with
    | some (CellValue.strV s0) =>
      let ext := get_extension s0
      if ext ∈ valid_image_extensions then
        c.values.all (fun v => cell_extension_matches v ext)
      else false
    | _ => false

/-- `utils.find_image_columns`: string columns that are image columns, in
dataframe column order. -/
def find_image_columns (df : DataFrame) : List String :=
  ((df.cols.filter (fun p => is_string_column p.2)).filter
    (fun p => is_image_column df p.1)).map (fun p => p.1)

/-- `utils.is_all_remote`: every value starts with `"http"` (the source
applies `str.startswith`; only string cells reach it). -/
def is_all_remote (c : Column) : Bool :=
  c.values.all (fun v =>
    match v with
    | .strV s => List.isPrefixOf "http".data s.data
    | _ => false)

/-- `utils.get_string_columns`. -/
def get_string_columns (df : DataFrame) : List String :=
  (df.cols.filter (fun p => is_string_column p.2)).map (fun p => p.1)

/-- `utils.get_numeric_columns` (`df.select_dtypes("number")`). -/
def get_numeric_columns (df : DataFrame) : List String :=
  (df.cols.filter (fun p => is_numeric_dtype p.2)).map (fun p => p.1)

/-- The tuple of values of the columns `key` at row `i`
(a row of `df.set_index(key_cols).index`). -/
def rowTuple (df : DataFrame) (key : List String) (i : Nat) : List (Option CellValue) :=
  key.map (fun k => (df.lookup k).bind (fun c => c.values.get? i))

/-- `df.set_index(key_cols).index.is_unique`: the row tuples of the key
columns are pairwise distinct. -/
def indexIsUnique (df : DataFrame) (key : List String) : Bool :=
  ((List.range df.nrows).map (rowTuple df key)).Nodup

/-- The loop of `utils.get_uniquely_identifying_cols`: keep appending the
next column to the accumulated candidate, return the first candidate whose
combination is unique, or `[]` when the columns run out. -/
def uniqueColsLoop (df : DataFrame) : List String → List String → List String
  | _, [] => []
  | acc, c :: rest =>
    let acc2 := acc ++ [c]
    if indexIsUnique df acc2 then acc2 else uniqueColsLoop df acc2 rest

/-- `utils.get_uniquely_identifying_cols`: greedy search over string
columns followed by numeric columns. -/
def get_uniquely_identifying_cols (df : DataFrame) : List String :=
  uniqueColsLoop df [] (get_string_columns df ++ get_numeric_columns df)

/-- `utils.is_dataframe_grouped`. -/
def is_dataframe_grouped (df : DataFrame) : Bool :=
  !df.groupedBy.isEmpty

example : get_extension "a/b/plot.PNG" = "PNG" := by decide
example : get_extension "archive.tar.gz" = "gz" := by decide
example : get_extension "noext" = "" := by decide
example : get_extension ".bashrc" = "" := by decide

/-! ## Ordered dictionaries (Python `dict` / `OrderedDict`) -/

/-- `d[k] = v`: replace in place when the key exists, else append. -/
def odSet {α : Type} (l : List (String × α)) (k : String) (v : α) : List (String × α) :=
  if l.any (fun p => p.1 = k) then
    l.map (fun p => if p.1 = k then (k, v) else p)
  else l ++ [(k, v)]

/-- `OrderedDict.move_to_end(k)`. -/
def odMoveToEnd {α : Type} (l : List (String × α)) (k : String) : List (String × α) :=
  l.filter (fun p => ¬ p.1 = k) ++ l.filter (fun p => p.1 = k)

/-- `d.get(k)` / `k in d` lookup. -/
def odLookup {α : Type} (l : List (String × α)) (k : String) : Option α :=
  (l.find? (fun p => p.1 = k)).map (fun p => p.2)

/-- `list(d.keys())`. -/
def odKeys {α : Type} (l : List (String × α)) : List String :=
  l.map (fun p => p.1)

/-! ## Panel sources and panels (`panel_source.py`, `panels.py`) -/

/-- `PanelSource`; only the `file` variant is exercised by this subsystem
(`FilePanelSource`), carrying its `is_local` flag. -/
structure PanelSource where
  ptype : String
  is_local : Bool := false
  deriving DecidableEq, Repr

/-- `FilePanelSource(is_local)`. -/
def FilePanelSource (isLocal : Bool) : PanelSource :=
  { ptype := "file", is_local := isLocal }

/-- `Panel` attribute bag, as set up by `Panel.__init__` and mutated by the
subclass constructors. -/
structure Panel where
  varname : String
  aspect_ratio : Rat := 3 / 2
  is_image : Bool := true
  is_writeable : Bool := false
  should_copy : Bool := false
  source : PanelSource
  panel_type_str : String
  panels_written : Bool := false
  figure_varname : Option String := none
  extension : Option String := none
  deriving DecidableEq, Repr

/-- `ImagePanel.__init__` (defaults `aspect_ratio=1.5`,
`should_copy_to_output=True`). -/
def ImagePanel.mk (varname : String) (source : PanelSource)
    (aspect_ratio : Rat := 3 / 2) (should_copy_to_output : Bool := true) : Panel :=
  { varname := varname, aspect_ratio := aspect_ratio, is_image := true,
    is_writeable := false, should_copy := should_copy_to_output,
    source := source, panel_type_str := "img" }

/-- `IFramePanel.__init__`. -/
def IFramePanel.mk (varname : String) (source : PanelSource)
    (aspect_ratio : Rat := 3 / 2) : Panel :=
  { varname := varname, aspect_ratio := aspect_ratio, is_image := false,
    is_writeable := false, should_copy := false,
    source := source, panel_type_str := "iframe" }

/-- `FigurePanel.__init__` (defaults `extension="png"`), setting
`figure_varname = varname + "__FIGURE"`. -/
def FigurePanel.mk (varname : String) (source : PanelSource)
    (extension : String := "png") (aspect_ratio : Rat := 3 / 2) : Panel :=
  { varname := varname, aspect_ratio := aspect_ratio, is_image := false,
    is_writeable := true, should_copy := false,
    source := source, panel_type_str := "img",
    figure_varname := some (varname ++ "__FIGURE"),
    extension := some extension }

/-- `PanelOptions` after `__init__` validation (typed fields stand in for
the `check_positive_numeric` / `check_bool` / `check_enum` argument checks;
`aspect` is always set, defaulting to `width / height`). -/
structure PanelOptions where
  width : Rat := 600
  height : Rat := 400
  format : Option String := none
  force : Bool := false
  prerender : Bool := true
  ptype : Option String := none
  aspect : Option Rat := none
  deriving DecidableEq, Repr

/-- `Panel.create_panel`: infer the panel variant for a column.  Exception
paths (`NotImplementedError` for `prerender=False`, `ValueError` when the
column is neither figure nor image) are `Except.error`. -/
def Panel.create_panel (df : DataFrame) (panel_column : String)
    (panel_options : Option PanelOptions := none)
    (is_known_figure_col : Bool := false) (is_known_image_col : Bool := false) :
    Except String Panel :=
  let isFig :=
    if !(is_known_image_col || is_known_figure_col) then
      if is_image_column df panel_column then false
      else is_figure_column df panel_column
    else is_known_figure_col
  let isImg :=
    if !(is_known_image_col || is_known_figure_col) then
      is_image_column df panel_column
    else is_known_image_col
  match panel_options with
  | some po =>
    if !po.prerender then
      Except.error "Local Web Socket Panel Source is not implemented yet."
    else createPanelCore df panel_column (some po) isFig isImg
  | none => createPanelCore df panel_column none isFig isImg
where
  /-- The body after the panel-source choice: `FilePanelSource(is_local=True)`
  then the figure / image / error branches and the aspect override. -/
  createPanelCore (df : DataFrame) (panel_column : String)
      (panel_options : Option PanelOptions)
      (isFig isImg : Bool) : Except String Panel :=
    let psource := FilePanelSource true
    if isFig then
      let panel := FigurePanel.mk panel_column { psource with is_local := true }
      let panel :=
        match panel_options with
        | some po =>
          match po.format with
          | some f => { panel with extension := some f }
          | none => panel
        | none => panel
      Except.ok (applyAspect panel panel_options)
    else if isImg || is_image_column df panel_column then
      let isLocal :=
        match df.lookup panel_column with
        | some c => !is_all_remote c
        | none => true
      let panel := ImagePanel.mk panel_column { psource with is_local := isLocal }
        (3 / 2) isLocal
      Except.ok (applyAspect panel panel_options)
    else
      Except.error ("Could not determine how to create a panel for " ++ panel_column)
  /-- `if panel_options.aspect is not None: panel.aspect_ratio = ...`. -/
  applyAspect (panel : Panel) (panel_options : Option PanelOptions) : Panel :=
    match panel_options with
    | some po =>
      match po.aspect with
      | some a => { panel with aspect_ratio := a }
      | none => panel
    | none => panel

/-! ## Metas (`metas.py`) -/

/-- The possible Python values of the `tags` constructor argument of
`Meta.__init__`: `None`, a `str`, a `list`, or a value of any other type. -/
inductive PyTags where
  | pynone
  | pystr (s : String)
  | pylist (l : List String)
  | pyother
  deriving DecidableEq, Repr

/-- `Meta` attribute bag.  The base attributes are common to all variants;
the remaining attributes are set by the subclass constructors (`digits` and
`locale` by `NumberMeta`, `levels` by `FactorMeta`, `aspect`,
`panel_source` and `panel_type` by `PanelMeta`). -/
structure Meta where
  type : String
  varname : String
  filterable : Bool
  sortable : Bool
  label : Option String
  tags : List String
  digits : Option Int := none
  locale : Bool := true
  levels : Option (List String) := none
  aspect : Rat := 0
  panel_source : Option PanelSource := none
  panel_type : String := ""
  deriving DecidableEq, Repr

/-- `Meta._get_error_message`. -/
def Meta.getErrorMessage (type varname errorText : String) : String :=
  "While defining a `" ++ type ++ "` meta variable for the variable `" ++
    varname ++ "`: `" ++ errorText ++ "`"

/-- `Meta._get_data_error_message`. -/
def Meta.getDataErrorMessage (varname errorText : String) : String :=
  "While checking meta variable definition for variable `" ++ varname ++
    "` against the data: `" ++ errorText ++ "`"

/-- `Meta.__init__`: sets the base attributes and normalizes `tags`
(`None` becomes `[]`, a bare string becomes a one-element list, a list is
kept; anything else raises `ValueError`). -/
def mkMetaBase (type varname : String) (filterable sortable : Bool)
    (label : Option String) (tags : PyTags) : Except String Meta :=
  match tags with
  | .pynone =>
    Except.ok { type := type, varname := varname, filterable := filterable,
                sortable := sortable, label := label, tags := [] }
  | .pystr s =>
    Except.ok { type := type, varname := varname, filterable := filterable,
                sortable := sortable, label := label, tags := [s] }
  | .pylist l =>
    Except.ok { type := type, varname := varname, filterable := filterable,
                sortable := sortable, label := label, tags := l }
  | .pyother => Except.error "Tags is an unrecognized type."

/-- `NumberMeta.__init__` (the `digits` / `locale` scalar, int and bool
checks are discharged by the Lean types of the arguments). -/
def NumberMeta.mk (varname : String) (label : Option String := none)
    (tags : PyTags := .pynone) (digits : Option Int := none)
    (locale : Bool := true) : Except String Meta := do
  let m ← mkMetaBase "number" varname true true label tags
  Except.ok { m with digits := digits, locale := locale }

/-- `StringMeta.__init__`. -/
def StringMeta.mk (varname : String) (label : Option String := none)
    (tags : PyTags := .pynone) : Except String Meta :=
  mkMetaBase "string" varname true true label tags

/-- `FactorMeta.__init__` (the `check_is_list` check on a supplied `levels`
is discharged by the Lean type). -/
def FactorMeta.mk (varname : String) (label : Option String := none)
    (tags : PyTags := .pynone) (levels : Option (List String) := none) :
    Except String Meta := do
  let m ← mkMetaBase "factor" varname true true label tags
  Except.ok { m with levels := levels }

/-- `HrefMeta.__init__`: never filterable or sortable. -/
def HrefMeta.mk (varname : String) (label : Option String := none)
    (tags : PyTags := .pynone) : Except String Meta :=
  mkMetaBase "href" varname false false label tags

/-- `PanelMeta.__init__`: base init on the panel's varname, then the
aspect-positivity check, the `PanelSource` type check (discharged by the
Lean type of `Panel.source`) and the panel-type enum check. -/
def PanelMeta.mk (panel : Panel) (label : Option String := none)
    (tags : PyTags := .pynone) : Except String Meta := do
  let m ← mkMetaBase "panel" panel.varname false false label tags
  if panel.aspect_ratio > 0 then
    if panel.panel_type_str ∈ ["img", "iframe"] then
      Except.ok { m with aspect := panel.aspect_ratio,
                         panel_source := some panel.source,
                         panel_type := panel.panel_type_str }
    else
      Except.error (Meta.getErrorMessage "panel" panel.varname
        (panel.panel_type_str ++ " must be one of ['img', 'iframe']"))
  else
    Except.error (Meta.getErrorMessage "panel" panel.varname
      "aspect must be a positive number.")

/-- Insertion of a string into a sorted list (ascending). -/
def insertSortedStr (s : String) : List String → List String
  | [] => [s]
  | x :: rest => if s ≤ x then s :: x :: rest else x :: insertSortedStr s rest

/-- Insertion sort on strings (pandas sorts the categories of a cast
categorical). -/
def sortStrings : List String → List String
  | [] => []
  | x :: rest => insertSortedStr x (sortStrings rest)

/-- `Series.astype("category")`: dtype becomes category and the categories
are the sorted distinct (string) values. -/
def castToCategory (c : Column) : Column :=
  { c with dtype := Dtype.categoryDt,
           categories := sortStrings ((c.values.filterMap (fun v =>
             match v with
             | CellValue.strV s => some s
             | _ => none)).dedup) }

/-- `FactorMeta.infer_levels`: cast the column to categorical when needed
(mutating the dataframe) and take the category list as the levels. -/
def FactorMeta.infer_levels (m : Meta) (df : DataFrame) : Meta × DataFrame :=
  match df.lookup m.varname with
  | none => (m, df)
  | some c =>
    if c.dtype = Dtype.categoryDt then
      ({ m with levels := some c.categories }, df)
    else
      let c2 := castToCategory c
      ({ m with levels := some c2.categories },
       { df with cols := odSet df.cols m.varname c2 })

/-- Does the cell equal the given level string?  (`check_exhaustive_levels`
compares the column's values against the declared levels.) -/
def cellInLevels (v : CellValue) (levels : List String) : Bool :=
  match v with
  | .strV s => s ∈ levels
  | _ => false

/-- `infer_dtype(column) == "mixed"` as used by `check_atomic_vector`:
an object column whose values are of genuinely mixed kinds. -/
def inferDtypeIsMixed (c : Column) : Bool :=
  c.dtype = Dtype.objectDt &&
    !(c.values.all CellValue.isStr || c.values.all CellValue.isNum ||
      c.values.all CellValue.isFigure)

/-- `Meta.check_with_data`: `check_varname` (column existence) followed by
the variant-specific `check_variable`.  `FactorMeta.check_variable` infers
the levels in place when they are `None` (mutating the meta and possibly
the dataframe), so the updated meta and dataframe are returned. -/
def Meta.check_with_data (m : Meta) (df : DataFrame) :
    Except String (Meta × DataFrame) := do
  match df.lookup m.varname with
  | none =>
    Except.error (Meta.getErrorMessage m.type m.varname
      ("Could not find variable " ++ m.varname ++ " is in the list of columns"))
  | some c =>
    if m.type = "number" ∨ m.type = "currency" then
      if is_numeric_dtype c then Except.ok (m, df)
      else
        Except.error (Meta.getDataErrorMessage m.varname
          ("The variable '" ++ m.varname ++ "' must be numeric."))
    else if m.type = "string" then
      if inferDtypeIsMixed c then
        Except.error (Meta.getDataErrorMessage m.varname
          ("The variable '" ++ m.varname ++
            "' is must be an atomic vector (not a nested type)."))
      else Except.ok (m, df)
    else if m.type = "factor" then
      let md :=
        match m.levels with
        | none => FactorMeta.infer_levels m df
        | some _ => (m, df)
      let levels := md.1.levels.getD []
      let cAfter := (md.2.lookup m.varname).getD c
      if cAfter.values.all (fun v => cellInLevels v levels) then
        Except.ok md
      else
        Except.error (Meta.getDataErrorMessage m.varname
          (m.varname ++ " contains values not specified in levels"))
    else if m.type = "href" then
      if is_string_column c then Except.ok (m, df)
      else
        Except.error (Meta.getDataErrorMessage m.varname "Data type is not a string")
    else
      Except.ok (m, df)

/-! ## States (`state.py`) -/

/-- `LayoutState` after `__init__` (typed `ncol`/`page` discharge
`check_int`; `viewtype` is fixed to `"grid"`). -/
structure LayoutState where
  ncol : Int := 1
  page : Int := 1
  viewtype : String := "grid"
  deriving DecidableEq, Repr

/-- `LabelState`. -/
structure LabelState where
  varnames : List String := []
  deriving DecidableEq, Repr

/-- `SortState` attribute bag. -/
structure SortStateV where
  varname : String
  dir : String := "asc"
  metatype : Option String := none
  deriving DecidableEq, Repr

/-- `SortState.__init__`: validates the direction against
`("asc", "desc")`. -/
def SortState.mk (varname : String) (dir : String := "asc")
    (meta_type : Option String := none) : Except String SortStateV :=
  if dir = "asc" ∨ dir = "desc" then
    Except.ok { varname := varname, dir := dir, metatype := meta_type }
  else
    Except.error ("While checking a sort state definition: " ++ dir ++
      " must be one of ['asc', 'desc']")

/-- `FilterState` attribute bag (covering `CategoryFilterState` via
`regexp`/`values` and the range filters via `minV`/`maxV`; the variant is
identified by `filtertype` as by `isinstance` in the source). -/
structure FilterStateV where
  varname : String
  filtertype : String
  applies_to : List String := []
  metatype : Option String := none
  regexp : Option String := none
  values : Option (List String) := none
  minV : Option Int := none
  maxV : Option Int := none
  deriving DecidableEq, Repr

/-- `CategoryFilterState.__init__`: `applies_to = ["string", "factor"]`;
a bare string `values` becomes a one-element list. -/
def CategoryFilterState.mk (varname : String) (regexp : Option String := none)
    (values : Option (List String) := none) : FilterStateV :=
  { varname := varname, filtertype := "category",
    applies_to := ["string", "factor"], regexp := regexp, values := values }

/-- `SortState.check_with_data`: the varname must be a dataframe column. -/
def SortState.check_with_data (s : SortStateV) (df : DataFrame) :
    Except String Unit :=
  if s.varname ∈ df.names then Except.ok ()
  else
    Except.error ("While checking sort state definition against the data: '" ++
      s.varname ++ "' not found in the dataset that the sort state definition is being applied to.")

/-- `FilterState.check_with_data`, including the `CategoryFilterState`
override: the varname must exist, and for a category filter every declared
value must occur in the column (`set(self.values) - set(df[varname].unique())`
raises a `TypeError` when `values` is `None`). -/
def FilterState.check_with_data (f : FilterStateV) (df : DataFrame) :
    Except String Unit :=
  if f.varname ∈ df.names then
    if f.filtertype = "category" then
      match f.values with
      | none => Except.error "TypeError: 'NoneType' object is not iterable"
      | some vs =>
        let c := (df.lookup f.varname).getD { dtype := Dtype.objectDt, values := [] }
        if vs.all (fun s => c.values.contains (CellValue.strV s)) then Except.ok ()
        else
          Except.error ("While checking filter state definition against the data: could not find the value(s) in the variable '" ++
            f.varname ++ "'")
    else Except.ok ()
  else
    Except.error ("While checking filter state definition against the data: '" ++
      f.varname ++ "' not found in the dataset that the filter state definition is being applied to.")

/-- The argument of `DisplayState.set`: one of the four state kinds. -/
inductive StateV where
  | layoutS (l : LayoutState)
  | labelsS (l : LabelState)
  | sortS (s : SortStateV)
  | filterS (f : FilterStateV)
  deriving DecidableEq, Repr

/-- `DisplayState`: optional layout and labels singletons plus the
insertion-ordered sort and filter mappings keyed by varname. -/
structure DisplayState where
  layout : Option LayoutState := none
  labels : Option LabelState := none
  sort : List (String × SortStateV) := []
  filter : List (String × FilterStateV) := []
  deriving DecidableEq, Repr

/-- `DisplayState.set(state, add)`: layout/labels always replace the
singleton; a sort/filter state is keyed by its varname and either
inserted-or-replaced and moved to the end (`add=True`) or made the sole
entry of a fresh mapping (`add=False`). -/
def DisplayState.set (ds : DisplayState) (state : StateV) (add : Bool := false) :
    DisplayState :=
  match state with
  | .layoutS l => { ds with layout := some l }
  | .labelsS l => { ds with labels := some l }
  | .sortS s =>
    if add then
      let m := odSet ds.sort s.varname s
      { ds with sort := odMoveToEnd m s.varname }
    else
      { ds with sort := [(s.varname, s)] }
  | .filterS f =>
    if add then
      let m := odSet ds.filter f.varname f
      { ds with filter := odMoveToEnd m f.varname }
    else
      { ds with filter := [(f.varname, f)] }

/-- `View`: a named alternate `DisplayState`. -/
structure View where
  name : String
  state : DisplayState := {}
  deriving DecidableEq, Repr

/-- `Input` (`input.py`): only its `name` is consulted by the
orchestrator. -/
structure Input where
  name : String
  deriving DecidableEq, Repr

/-! ## The orchestrator (`trelliscope.py`) -/

/-- `Trelliscope` attribute bag (the attributes set by `__init__` and used
by the modeled methods; `id` is `idStr`). -/
structure Trelliscope where
  data_frame : DataFrame
  name : String := ""
  description : Option String := none
  tags : List String := []
  key_cols : Option (List String) := none
  path : Option String := none
  force_plot : Bool := false
  pretty_meta_data : Bool := false
  keysig : Option String := none
  server : Option String := none
  thumbnail_url : Option String := none
  facet_cols : Option (List String) := none
  panel_options : List (String × PanelOptions) := []
  panels : List (String × Panel) := []
  primary_panel : Option String := none
  idStr : String := ""
  metas : List (String × Meta) := []
  columns_to_ignore : List String := []
  state : DisplayState := {}
  views : List (String × View) := []
  inputs : List (String × Input) := []
  deriving DecidableEq, Repr

/-- `Trelliscope._get_panel_columns`. -/
def Trelliscope.get_panel_columns (tr : Trelliscope) : List String :=
  odKeys tr.panels

/-- `Trelliscope._get_panel_figure_columns` (a list that contains `None`
for panels without a shadow figure column). -/
def Trelliscope.get_panel_figure_columns (tr : Trelliscope) : List (Option String) :=
  tr.panels.map (fun p => p.2.figure_varname)

/-- `Trelliscope._has_panel`. -/
def Trelliscope.has_panel (tr : Trelliscope) (panel_col : String) : Bool :=
  (odLookup tr.panels panel_col).isSome

/-- `Trelliscope._get_panel_options` for one panel name. -/
def Trelliscope.get_panel_options_for (tr : Trelliscope) (panel_name : String) :
    Option PanelOptions :=
  odLookup tr.panel_options panel_name

/-- `Trelliscope._infer_primary_panel`: first panel column, if any
(mutates `primary_panel` on the receiver; value-level result). -/
def Trelliscope.infer_primary_panel (tr : Trelliscope) : Trelliscope :=
  match tr.get_panel_columns with
  | [] => tr
  | c :: _ => { tr with primary_panel := some c }

/-- The mutation applied by `Trelliscope.set_meta` to the copy after
`meta.check_with_data(tr.data_frame)` succeeds: store the (possibly
level-inferred) meta under its varname and keep the (possibly cast)
dataframe. -/
def Trelliscope.set_meta (tr : Trelliscope) (meta : Meta) :
    Except String Trelliscope := do
  let md ← Meta.check_with_data meta tr.data_frame
  Except.ok { tr with data_frame := md.2, metas := odSet tr.metas md.1.varname md.1 }

/-- The mutation applied by `Trelliscope.add_panel` to the copy. -/
def Trelliscope.add_panel (tr : Trelliscope) (panel : Panel) : Trelliscope :=
  { tr with panels := odSet tr.panels panel.varname panel }

/-- `Trelliscope._infer_meta_variable`, reading only the panels mapping
and the column: panel column, shadow figure column, categorical, numeric,
string (href when all values start with `"http"`), else nothing. -/
def inferMetaVariableP (panels : List (String × Panel)) (meta_column : Column)
    (meta_name : String) : Except String (Option Meta) :=
  match odLookup panels meta_name with
  | some panel => do
    let m ← PanelMeta.mk panel
    Except.ok (some m)
  | none =>
    if (panels.map (fun q => q.2.figure_varname)).contains (some meta_name) then
      Except.ok none
    else if meta_column.dtype = Dtype.categoryDt then do
      let m ← FactorMeta.mk meta_name
      Except.ok (some m)
    else if is_numeric_dtype meta_column then do
      let m ← NumberMeta.mk meta_name
      Except.ok (some m)
    else if is_string_column meta_column then
      if is_all_remote meta_column then do
        let m ← HrefMeta.mk meta_name
        Except.ok (some m)
      else do
        let m ← StringMeta.mk meta_name
        Except.ok (some m)
    else
      Except.ok none

/-- `Trelliscope._infer_meta_variable` as a method. -/
def Trelliscope.infer_meta_variable (tr : Trelliscope) (meta_column : Column)
    (meta_name : String) : Except String (Option Meta) :=
  inferMetaVariableP tr.panels meta_column meta_name

/-- `Trelliscope._finalize_meta_labels`, with explicit state passing:
the method deep-copies `self` into `tr`, then walks `self.metas` (not
`tr.metas`) setting `label = varname` where the label is `None`, and
returns `tr`.  The first component is the post-call value of `self`
(mutated); the second is the returned object (the pre-mutation copy). -/
def Trelliscope.finalize_meta_labels (self : Trelliscope) :
    Trelliscope × Trelliscope :=
  let tr := self
  let selfAfter :=
    { self with metas := self.metas.map (fun p =>
        if p.2.label = none then (p.1, { p.2 with label := some p.2.varname }) else p) }
  (selfAfter, tr)

/-- The loop of `Trelliscope._infer_metas` over the names to infer:
uninferrable names are collected in `removed`, inferred metas are stored
through `set_meta` (whose data checks can raise). -/
def inferMetasLoop :
    Trelliscope → List String → List String →
    Except String (Trelliscope × List String)
  | tr, [], removed => Except.ok (tr, removed)
  | tr, n :: rest, removed =>
    match tr.data_frame.lookup n with
    | none => Except.error ("KeyError: " ++ n)
    | some col =>
      match tr.infer_meta_variable col n with
      | .error e => Except.error e
      | .ok none => inferMetasLoop tr rest (removed ++ [n])
      | .ok (some m) =>
        match tr.set_meta m with
        | .error e => Except.error e
        | .ok tr2 => inferMetasLoop tr2 rest removed

/-- `Trelliscope._infer_metas` with explicit state passing (first
component: post-call `self`, never written by the method).  The names to
infer are `set(df.columns) - set(metas.keys())`, a Python set with
unspecified iteration order, modeled in dataframe column order.  The
method ends by rebinding `tr` to the result of `_finalize_meta_labels`
(the pre-mutation copy). -/
def Trelliscope.infer_metas (self : Trelliscope) :
    Trelliscope × Except String Trelliscope :=
  let tr := self
  let metasToInfer := tr.data_frame.names.filter
    (fun c => (odLookup tr.metas c).isNone)
  match inferMetasLoop tr metasToInfer [] with
  | .error e => (self, .error e)
  | .ok (tr2, removed) =>
    let tr3 := { tr2 with columns_to_ignore := tr2.columns_to_ignore ++ removed }
    (self, .ok tr3.finalize_meta_labels.2)

/-- First loop of `Trelliscope._infer_state`: set each filter's `metatype`
from the meta sharing its varname (`KeyError` when there is none). -/
def assignFilterMetatypes (metas : List (String × Meta)) :
    List (String × FilterStateV) → Except String (List (String × FilterStateV))
  | [] => Except.ok []
  | (k, f) :: rest =>
    match odLookup metas k with
    | none => Except.error ("KeyError: " ++ k)
    | some m => do
      let r ← assignFilterMetatypes metas rest
      Except.ok ((k, { f with metatype := some m.type }) :: r)

/-- Second loop of `Trelliscope._infer_state`: same for the sorts. -/
def assignSortMetatypes (metas : List (String × Meta)) :
    List (String × SortStateV) → Except String (List (String × SortStateV))
  | [] => Except.ok []
  | (k, s) :: rest =>
    match odLookup metas k with
    | none => Except.error ("KeyError: " ++ k)
    | some m => do
      let r ← assignSortMetatypes metas rest
      Except.ok ((k, { s with metatype := some m.type }) :: r)

/-- Third loop of `Trelliscope._infer_state`: for every category filter
paired with a factor meta and carrying a non-empty `values` list, replace
`values` by `list(set(meta.levels).intersection(filter.values))`.  The
Python value is a set rendered as a list in unspecified order; it is
modeled as the deduplicated levels filtered by membership in the old
values (same elements).  `set(None)` raises a `TypeError`. -/
def translateFactorFilters (metas : List (String × Meta)) :
    List (String × FilterStateV) → Except String (List (String × FilterStateV))
  | [] => Except.ok []
  | (k, f) :: rest =>
    match odLookup metas k with
    | none => Except.error ("KeyError: " ++ k)
    | some m =>
      let f2e : Except String FilterStateV :=
        if f.filtertype = "category" ∧ m.type = "factor" then
          match f.values with
          | some vs =>
            if vs.length > 0 then
              match m.levels with
              | none => Except.error "TypeError: 'NoneType' object is not iterable"
              | some lv =>
                Except.ok { f with values := some (lv.dedup.filter (fun x => x ∈ vs)) }
            else Except.ok f
          | none => Except.ok f
        else Except.ok f
      match f2e with
      | .error e => Except.error e
      | .ok f2 => do
        let r ← translateFactorFilters metas rest
        Except.ok ((k, f2) :: r)

/-- `Trelliscope._infer_state` with explicit state passing for the `state`
argument: the method deep-copies `state` into `state2` and only ever
writes `state2`, so the first component (the post-call value of the input
state object) is the input itself.  Defaults: layout `ncol=3`, labels from
the key columns. -/
def Trelliscope.infer_state (tr : Trelliscope) (state : DisplayState)
    (_view : Option String := none) :
    DisplayState × Except String DisplayState :=
  let state2 := state
  let state2 :=
    match state2.layout with
    | none => { state2 with layout := some { ncol := 3, page := 1, viewtype := "grid" } }
    | some _ => state2
  let state2 :=
    match state2.labels with
    | none => { state2 with labels := some { varnames := tr.key_cols.getD [] } }
    | some _ => state2
  match assignFilterMetatypes tr.metas state2.filter with
  | .error e => (state, .error e)
  | .ok fl =>
    match assignSortMetatypes tr.metas state2.sort with
    | .error e => (state, .error e)
    | .ok sl =>
      match translateFactorFilters tr.metas fl with
      | .error e => (state, .error e)
      | .ok fl2 => (state, .ok { state2 with sort := sl, filter := fl2 })

/-- Figure-column loop of `Trelliscope.infer_panels`: create a panel for
every figure column (with that column's pre-registered panel options) and
add it. -/
def inferPanelsFigLoop : Trelliscope → List String → Except String Trelliscope
  | tr, [] => Except.ok tr
  | tr, c :: rest =>
    match Panel.create_panel tr.data_frame c (tr.get_panel_options_for c) true false with
    | .error e => Except.error e
    | .ok panel => inferPanelsFigLoop (tr.add_panel panel) rest

/-- Image-column loop of `Trelliscope.infer_panels`. -/
def inferPanelsImgLoop : Trelliscope → List String → Except String Trelliscope
  | tr, [] => Except.ok tr
  | tr, c :: rest =>
    match Panel.create_panel tr.data_frame c (tr.get_panel_options_for c) false true with
    | .error e => Except.error e
    | .ok panel => inferPanelsImgLoop (tr.add_panel panel) rest

/-- `Trelliscope.infer_panels` with explicit state passing (first
component: post-call `self`): when no panel is registered yet, create one
panel per figure column and one per image column; finally re-infer the
primary panel when it is unset. -/
def Trelliscope.infer_panels (self : Trelliscope) :
    Trelliscope × Except String Trelliscope :=
  let tr := self
  let r : Except String Trelliscope :=
    if tr.get_panel_columns.length = 0 then
      match inferPanelsFigLoop tr (find_figure_columns tr.data_frame) with
      | .error e => Except.error e
      | .ok tr1 =>
        match inferPanelsImgLoop tr1 (find_image_columns tr1.data_frame) with
        | .error e => Except.error e
        | .ok tr2 => Except.ok tr2
    else Except.ok tr
  match r with
  | .error e => (self, .error e)
  | .ok tr2 =>
    let tr3 := if tr2.primary_panel.isNone then tr2.infer_primary_panel else tr2
    (self, .ok tr3)

/-- `Trelliscope._get_key_cols`: facet columns verbatim, else explicit key
columns verbatim, else the group-by columns (that branch also un-groups
the dataframe, a side effect not modeled because it is outside the claims'
hypotheses), else the greedy unique-column search, raising when it finds
nothing. -/
def Trelliscope.get_key_cols (tr : Trelliscope) : Except String (List String) :=
  match tr.facet_cols with
  | some f => Except.ok f
  | none =>
    match tr.key_cols with
    | some k => Except.ok k
    | none =>
      if is_dataframe_grouped tr.data_frame then
        Except.ok tr.data_frame.groupedBy
      else
        let kc := get_uniquely_identifying_cols tr.data_frame
        if kc.length = 0 then
          Except.error "Could not find columns of the data that uniquely define each row."
        else Except.ok kc

/-! ## Object identity layer

Each Python setter's body is `tr = self.__copy()` (a `copy.deepcopy`)
followed by mutations of `tr` only.  `TrObj` pairs a `Trelliscope` value
with an allocation id; `deepcopy` allocates a fresh id from a counter.
Every setter returns the post-call value of `self`, its result, and the
new counter. -/

/-- A Python object reference: allocation id plus current value. -/
structure TrObj where
  oid : Nat
  val : Trelliscope
  deriving DecidableEq, Repr

/-- `Trelliscope.__copy` (`copy.deepcopy(self)`): same value, fresh id. -/
def TrObj.deepcopy (self : TrObj) (ctr : Nat) : TrObj × Nat :=
  ({ oid := ctr, val := self.val }, ctr + 1)

/-- `Trelliscope.add_panel` (the `isinstance(panel, Panel)` check is
discharged by the Lean type of the argument). -/
def TrObj.add_panel (self : TrObj) (ctr : Nat) (panel : Panel) :
    TrObj × TrObj × Nat :=
  let c := self.deepcopy ctr
  (self, { c.1 with val := c.1.val.add_panel panel }, c.2)

/-- `Trelliscope.set_meta`. -/
def TrObj.set_meta (self : TrObj) (ctr : Nat) (meta : Meta) :
    TrObj × Except String TrObj × Nat :=
  let c := self.deepcopy ctr
  match c.1.val.set_meta meta with
  | .error e => (self, .error e, c.2)
  | .ok v => (self, .ok { c.1 with val := v }, c.2)

/-- `Trelliscope.set_state`. -/
def TrObj.set_state (self : TrObj) (ctr : Nat) (state : DisplayState) :
    TrObj × TrObj × Nat :=
  let c := self.deepcopy ctr
  (self, { c.1 with val := { c.1.val with state := state } }, c.2)

/-- `Trelliscope.add_view`. -/
def TrObj.add_view (self : TrObj) (ctr : Nat) (view : View) :
    TrObj × TrObj × Nat :=
  let c := self.deepcopy ctr
  (self,
   { c.1 with val := { c.1.val with views := odSet c.1.val.views view.name view } },
   c.2)

/-- `Trelliscope.set_primary_panel`. -/
def TrObj.set_primary_panel (self : TrObj) (ctr : Nat)
    (panel_column_name : String) : TrObj × Except String TrObj × Nat :=
  let c := self.deepcopy ctr
  if c.1.val.has_panel panel_column_name then
    (self,
     .ok { c.1 with
             val := { c.1.val with primary_panel := some panel_column_name } },
     c.2)
  else (self, .error "Error: Primary panel should be a panel.", c.2)

/-- `Trelliscope.set_panel_options` (the per-entry `isinstance` check is
discharged by the Lean type; the already-exists warning is a no-op). -/
def TrObj.set_panel_options (self : TrObj) (ctr : Nat)
    (panel_options_dictionary : List (String × PanelOptions)) :
    TrObj × TrObj × Nat :=
  let c := self.deepcopy ctr
  (self,
   { c.1 with
       val := { c.1.val with
                  panel_options := panel_options_dictionary.foldl
                    (fun acc p => odSet acc p.1 p.2) c.1.val.panel_options } },
   c.2)

/-- Loop of `Trelliscope.set_default_sort`: build and check a `SortState`
per (varname, direction) pair and fold it into the state copy; `is_first`
becomes false after the first iteration. -/
def sortStatesLoop : List (String × String) → DisplayState → Bool → Bool →
    DataFrame → Except String DisplayState
  | [], st, _, _, _ => Except.ok st
  | (v, d) :: rest, st, isFirst, add, df =>
    match SortState.mk v d with
    | .error e => Except.error e
    | .ok ss =>
      match SortState.check_with_data ss df with
      | .error e => Except.error e
      | .ok _ => sortStatesLoop rest (st.set (.sortS ss) (!isFirst || add)) false add df

/-- `Trelliscope.set_default_sort`: default/replicate the direction list,
check the lengths, fold the sort states into a copy of the state, and
store it through `set_state` (which makes a further copy). -/
def TrObj.set_default_sort (self : TrObj) (ctr : Nat) (varnames : List String)
    (sort_directions : Option (List String) := none) (add : Bool := false) :
    TrObj × Except String TrObj × Nat :=
  let c := self.deepcopy ctr
  let tr := c.1
  let dirs :=
    match sort_directions with
    | none => List.replicate varnames.length "asc"
    | some ds =>
      match ds with
      | [d] => List.replicate varnames.length d
      | _ => ds
  if varnames.length ≠ dirs.length then
    (self, .error "In setting sort state, 'varnames' must have same length as 'dirs'", c.2)
  else
    match sortStatesLoop (varnames.zip dirs) tr.val.state true add tr.val.data_frame with
    | .error e => (self, .error e, c.2)
    | .ok st2 =>
      let r := TrObj.set_state tr c.2 st2
      (self, .ok r.2.1, r.2.2)

/-- Loop of `Trelliscope.set_default_filters`.  Note: the source
initializes `is_first = True` but never updates it inside this loop, so
every iteration passes `(not is_first or add) = add`; the model mirrors
that by passing `isFirst` through unchanged. -/
def filterStatesLoop : List FilterStateV → DisplayState → Bool → Bool →
    DataFrame → Except String DisplayState
  | [], st, _, _, _ => Except.ok st
  | f :: rest, st, isFirst, add, df =>
    match FilterState.check_with_data f df with
    | .error e => Except.error e
    | .ok _ => filterStatesLoop rest (st.set (.filterS f) (!isFirst || add)) isFirst add df

/-- `Trelliscope.set_default_filters` (the `isinstance(filter,
FilterState)` check is discharged by the Lean type of the list). -/
def TrObj.set_default_filters (self : TrObj) (ctr : Nat)
    (filters : List FilterStateV := []) (add : Bool := true) :
    TrObj × Except String TrObj × Nat :=
  let c := self.deepcopy ctr
  let tr := c.1
  match filterStatesLoop filters tr.val.state true add tr.val.data_frame with
  | .error e => (self, .error e, c.2)
  | .ok st2 =>
    let r := TrObj.set_state tr c.2 st2
    (self, .ok r.2.1, r.2.2)

/-! ## Claim theorems -/

/-- C10: constructing any Meta variant with a `tags` argument that is
neither `None`, a string, nor a list raises `ValueError` ("Tags is an
unrecognized type.") and produces no Meta object; otherwise the
constructed Meta's `tags` attribute is always a list: `[]` for `None`,
`[tags]` for a string, and `tags` itself for a list.  Stated for the
shared base initializer `mkMetaBase` (which every variant constructor runs
first) and instantiated for each modeled variant constructor. -/
theorem c10_meta_tags_normalization :
    ∀ (ty vn : String) (fil so : Bool) (lb : Option String) (s : String)
      (l : List String),
      mkMetaBase ty vn fil so lb PyTags.pyother =
        Except.error "Tags is an unrecognized type." ∧
      (mkMetaBase ty vn fil so lb PyTags.pynone).map Meta.tags = Except.ok [] ∧
      (mkMetaBase ty vn fil so lb (PyTags.pystr s)).map Meta.tags = Except.ok [s] ∧
      (mkMetaBase ty vn fil so lb (PyTags.pylist l)).map Meta.tags = Except.ok l ∧
      NumberMeta.mk vn lb PyTags.pyother =
        Except.error "Tags is an unrecognized type." ∧
      (NumberMeta.mk vn lb PyTags.pynone).map Meta.tags = Except.ok [] ∧
      (NumberMeta.mk vn lb (PyTags.pystr s)).map Meta.tags = Except.ok [s] ∧
      (NumberMeta.mk vn lb (PyTags.pylist l)).map Meta.tags = Except.ok l ∧
      StringMeta.mk vn lb PyTags.pyother =
        Except.error "Tags is an unrecognized type." ∧
      (StringMeta.mk vn lb (PyTags.pystr s)).map Meta.tags = Except.ok [s] ∧
      FactorMeta.mk vn lb PyTags.pyother =
        Except.error "Tags is an unrecognized type." ∧
      (FactorMeta.mk vn lb (PyTags.pylist l)).map Meta.tags = Except.ok l ∧
      HrefMeta.mk vn lb PyTags.pyother =
        Except.error "Tags is an unrecognized type." ∧
      (HrefMeta.mk vn lb (PyTags.pystr s)).map Meta.tags = Except.ok [s] ∧
      (∀ p : Panel, PanelMeta.mk p lb PyTags.pyother =
        Except.error "Tags is an unrecognized type.") ∧
      (PanelMeta.mk (ImagePanel.mk vn (FilePanelSource true)) lb
        (PyTags.pylist l)).map Meta.tags = Except.ok l := by
  intro ty vn fil so lb s l
  refine ⟨rfl, rfl, rfl, rfl, rfl, rfl, rfl, rfl, rfl, rfl, rfl, rfl, rfl, rfl,
    fun p => rfl, ?_⟩
  have h32 : ((3 : Rat) / 2 > 0) = True := by norm_num
  simp only [PanelMeta.mk, mkMetaBase, ImagePanel.mk, FilePanelSource, Except.map,
    Except.bind, h32, if_true, List.mem_cons, List.mem_singleton, bind, pure,
    Except.pure]
  simp

/-- Concrete dataframe for C2: one numeric column `"x"` with unique values. -/
def dfC2 : DataFrame :=
  { cols := [("x", { dtype := Dtype.numericDt, values := [CellValue.numV 1, CellValue.numV 2] })] }

/-- Concrete orchestrator for C2, before meta inference. -/
def trC2 : Trelliscope :=
  { data_frame := dfC2, name := "t" }

/-- The meta that `_infer_metas` creates for column `"x"`: a NumberMeta
whose label is still `None`. -/
def metaC2 : Meta :=
  { type := "number", varname := "x", filterable := true, sortable := true,
    label := none, tags := [] }

/-- Concrete orchestrator for C2 whose metas mapping holds `metaC2`. -/
def trC2m : Trelliscope :=
  { trC2 with metas := [("x", metaC2)] }

/-- C2 (code bug): the meta-inference pass ends by rebinding to the
result of `_finalize_meta_labels`, but that method deep-copies first and
then sets the labels on `self.metas` rather than on the copy's metas, so
(1) the object returned by `_infer_metas` still has `label = None` on the
inferred NumberMeta for column `"x"`, and (2) `_finalize_meta_labels`
returns its receiver's pre-call value unchanged while mutating the
receiver — the opposite of the claim (and of the method's own docstring
"Returns a copy of the Trelliscope object. The original is not
modified."). -/
theorem c2_finalize_labels_code_bug :
    (Trelliscope.infer_metas trC2).1 = trC2 ∧
    (∃ tr2, (Trelliscope.infer_metas trC2).2 = Except.ok tr2 ∧
      odLookup tr2.metas "x" = some metaC2 ∧ metaC2.label = none) ∧
    (Trelliscope.finalize_meta_labels trC2m).2 = trC2m ∧
    odLookup (Trelliscope.finalize_meta_labels trC2m).1.metas "x" =
      some { metaC2 with label := some "x" } ∧
    (Trelliscope.finalize_meta_labels trC2m).1 ≠ trC2m := by
  exact ⟨rfl, ⟨trC2m, by rfl, by rfl, rfl⟩, rfl, by rfl, by decide⟩

/-- C8: `HrefMeta(varname).check_with_data(df)` returns without raising
when the varname column holds only string values (an object-dtype column
with at least one row), and raises a `ValueError` whose message contains
"Data type is not a string" when the column holds at least one numeric
value. -/
theorem c8_href_string_validation :
    ∀ (df : DataFrame) (vn : String) (c : Column) (m : Meta),
      HrefMeta.mk vn = Except.ok m →
      df.lookup vn = some c →
      ((c.dtype = Dtype.objectDt → c.values ≠ [] →
          (∀ v ∈ c.values, v.isStr = true) →
          Meta.check_with_data m df = Except.ok (m, df)) ∧
       ((∃ v ∈ c.values, v.isNum = true) →
          ∃ e, Meta.check_with_data m df = Except.error e ∧
            ∃ a b, e = a ++ "Data type is not a string" ++ b)) := by
  intro df vn c m hm hlook
  have hmval : m = { type := "href", varname := vn, filterable := false,
                     sortable := false, label := none, tags := [] } := by
    simpa [HrefMeta.mk, mkMetaBase] using hm.symm
  subst hmval
  constructor
  · intro hdt hne hall
    have hstr : is_string_column c = true := by
      unfold is_string_column is_string_dtype
      cases hv : c.values with
      | nil => exact absurd hv hne
      | cons v vs =>
        have hv0 : v.isStr = true := hall v (by simp [hv])
        have hvs : ∀ x ∈ vs, CellValue.isStr x = true :=
          fun x hx => hall x (by simp [hv, hx])
        simp [hdt, hv0, List.all_eq_true]
        exact hvs
    simp [Meta.check_with_data, hlook, hstr]
  · rintro ⟨v, hv, hnum⟩
    have hallf : c.values.all CellValue.isStr = false := by
      rw [List.all_eq_false]
      refine ⟨v, hv, ?_⟩
      cases v <;> simp_all [CellValue.isStr, CellValue.isNum]
    have hnotstr : is_string_column c = false := by
      unfold is_string_column is_string_dtype
      simp [hallf]
    refine ⟨Meta.getDataErrorMessage vn "Data type is not a string", ?_, ?_⟩
    · simp [Meta.check_with_data, hlook, hnotstr]
    · exact ⟨"While checking meta variable definition for variable `" ++ vn ++
        "` against the data: `", "`", rfl⟩

/-- All-strings column for the C8 witness. -/
def colC8link : Column :=
  { dtype := Dtype.objectDt,
    values := [CellValue.strV "http://a", CellValue.strV "b"] }

/-- Column with a numeric value for the C8 witness. -/
def colC8bad : Column :=
  { dtype := Dtype.objectDt,
    values := [CellValue.strV "x", CellValue.numV 5] }

/-- Concrete dataframe for the C8 witness. -/
def dfC8 : DataFrame :=
  { cols := [("link", colC8link), ("bad", colC8bad)] }

/-- The HrefMeta on `"link"`. -/
def mC8link : Meta :=
  { type := "href", varname := "link", filterable := false, sortable := false,
    label := none, tags := [] }

/-- The HrefMeta on `"bad"`. -/
def mC8bad : Meta :=
  { type := "href", varname := "bad", filterable := false, sortable := false,
    label := none, tags := [] }

/-- Witness for C8 at a concrete dataframe. -/
theorem c8_href_string_validation_witness :
    Meta.check_with_data mC8link dfC8 = Except.ok (mC8link, dfC8) ∧
    ∃ e, Meta.check_with_data mC8bad dfC8 = Except.error e ∧
      ∃ a b, e = a ++ "Data type is not a string" ++ b := by
  constructor
  · exact (c8_href_string_validation dfC8 "link" colC8link mC8link rfl rfl).1
      rfl (by decide) (by decide)
  · exact (c8_href_string_validation dfC8 "bad" colC8bad mC8bad rfl rfl).2
      ⟨CellValue.numV 5, by decide, rfl⟩

/-- When the key is absent, `d[k] = v` appends the entry. -/
theorem odSet_of_not_mem {α : Type} (l : List (String × α)) (k : String) (v : α)
    (h : ∀ p ∈ l, p.1 ≠ k) : odSet l k v = l ++ [(k, v)] := by
  unfold odSet
  have hany : l.any (fun p => p.1 = k) = false := by
    rw [List.any_eq_false]
    intro p hp
    simp [h p hp]
  simp [hany]

/-- Insert-or-replace followed by `move_to_end` drops any previous entry
for the key and appends the new one (for a mapping with distinct keys). -/
theorem odMoveToEnd_odSet {α : Type} (l : List (String × α)) (k : String) (v : α)
    (h : (l.map Prod.fst).Nodup) :
    odMoveToEnd (odSet l k v) k = l.filter (fun p => ¬ p.1 = k) ++ [(k, v)] := by
  induction l with
  | nil => simp [odSet, odMoveToEnd]
  | cons p t ih =>
    have h2 : p.1 ∉ t.map Prod.fst ∧ (t.map Prod.fst).Nodup := by
      rw [List.map_cons, List.nodup_cons] at h
      exact h
    by_cases hk : p.1 = k
    · have hkt : ∀ q ∈ t, q.1 ≠ k := by
        intro q hq hqk
        exact h2.1 (by
          rw [hk, ← hqk]
          exact List.mem_map_of_mem Prod.fst hq)
      have hany : (p :: t).any (fun q => decide (q.1 = k)) = true := by
        simp [hk]
      have hmap : t.map (fun q => if q.1 = k then (k, v) else q) = t := by
        have hmapid : t.map (fun q => if q.1 = k then (k, v) else q) = t.map id := by
          apply List.map_congr_left
          intro q hq
          simp [hkt q hq]
        rw [hmapid, List.map_id]
      have hset : odSet (p :: t) k v = (k, v) :: t := by
        unfold odSet
        simp only [hany, if_true, List.map_cons, hk, if_pos rfl, hmap]
      rw [hset]
      have hfilne : t.filter (fun q => decide (¬ q.1 = k)) = t := by
        rw [List.filter_eq_self]
        intro q hq
        simp [hkt q hq]
      have hfileq : t.filter (fun q => decide (q.1 = k)) = [] := by
        rw [List.filter_eq_nil_iff]
        intro q hq
        simp [hkt q hq]
      simp [odMoveToEnd, hfilne, hfileq, hk]
    · have hset : odSet (p :: t) k v = p :: odSet t k v := by
        unfold odSet
        by_cases h2 : t.any (fun q => decide (q.1 = k)) = true
        · simp [h2, hk]
        · simp only [Bool.not_eq_true] at h2
          simp [h2, hk]
      rw [hset]
      have hmove : odMoveToEnd (p :: odSet t k v) k = p :: odMoveToEnd (odSet t k v) k := by
        simp [odMoveToEnd, hk]
      rw [hmove, ih h2.2]
      simp [hk]

/-- C7: `DisplayState.set` semantics.  A LayoutState or LabelState always
replaces the current singleton; a SortState or FilterState with `add=True`
is inserted keyed by varname (replacing an entry of the same varname) and
moved to the end of the ordered mapping; with `add=False` the whole
mapping of that kind is discarded in favor of the new entry.  The concrete
scenario of the claim — `set(SortState("a"), add=True)` then
`set(SortState("b"), add=True)` gives sort order `[a, b]`, and a
subsequent `set(SortState("c"), add=False)` gives exactly `[c]` — is
included as the final conjuncts. -/
theorem c7_display_state_set :
    ∀ (ds : DisplayState) (l : LayoutState) (lb : LabelState)
      (ss : SortStateV) (fs : FilterStateV),
      (ds.sort.map Prod.fst).Nodup →
      (ds.filter.map Prod.fst).Nodup →
      (∀ add, ds.set (StateV.layoutS l) add = { ds with layout := some l }) ∧
      (∀ add, ds.set (StateV.labelsS lb) add = { ds with labels := some lb }) ∧
      ds.set (StateV.sortS ss) true =
        { ds with sort := ds.sort.filter (fun p => ¬ p.1 = ss.varname) ++
                            [(ss.varname, ss)] } ∧
      ds.set (StateV.sortS ss) false = { ds with sort := [(ss.varname, ss)] } ∧
      ds.set (StateV.filterS fs) true =
        { ds with filter := ds.filter.filter (fun p => ¬ p.1 = fs.varname) ++
                              [(fs.varname, fs)] } ∧
      ds.set (StateV.filterS fs) false =
        { ds with filter := [(fs.varname, fs)] } ∧
      ((({} : DisplayState).set (StateV.sortS { varname := "a" }) true).set
          (StateV.sortS { varname := "b" }) true).sort.map Prod.fst = ["a", "b"] ∧
      (((({} : DisplayState).set (StateV.sortS { varname := "a" }) true).set
          (StateV.sortS { varname := "b" }) true).set
          (StateV.sortS { varname := "c" }) false).sort.map Prod.fst = ["c"] := by
  intro ds l lb ss fs hs hf
  refine ⟨fun add => rfl, fun add => rfl, ?_, rfl, ?_, rfl, by decide, by decide⟩
  · show { ds with sort := odMoveToEnd (odSet ds.sort ss.varname ss) ss.varname } = _
    rw [odMoveToEnd_odSet ds.sort ss.varname ss hs]
  · show { ds with filter := odMoveToEnd (odSet ds.filter fs.varname fs) fs.varname } = _
    rw [odMoveToEnd_odSet ds.filter fs.varname fs hf]

/-- Witness for C7 at a concrete display state. -/
theorem c7_display_state_set_witness :
    ({ sort := [("x", { varname := "x", dir := "desc" })] } : DisplayState).set
        (StateV.sortS { varname := "a" }) true =
      { sort := [("x", { varname := "x", dir := "desc" }),
                 ("a", { varname := "a" })] } :=
  (c7_display_state_set { sort := [("x", { varname := "x", dir := "desc" })] }
    {} {} { varname := "a" } { varname := "z", filtertype := "category" }
    (by decide) (by decide)).2.2.1

/-- C1: copy-on-write contract of the orchestrator setters.  For each of
`add_panel`, `set_meta`, `set_state`, `add_view`, `set_default_sort`,
`set_default_filters`, `set_primary_panel` and `set_panel_options`: the
post-call value of `self` (first component) equals its pre-call value —
deep equality of the whole attribute bag — and any returned object carries
a freshly allocated id, so it is not the original (`updated is not
original`).  `self.oid < ctr` says the counter is ahead of the receiver's
allocation id. -/
theorem c1_copy_on_write :
    ∀ (self : TrObj) (ctr : Nat), self.oid < ctr →
      (∀ p : Panel, (self.add_panel ctr p).1 = self ∧
        (self.add_panel ctr p).2.1.oid ≠ self.oid) ∧
      (∀ m : Meta, (self.set_meta ctr m).1 = self ∧
        ∀ r, (self.set_meta ctr m).2.1 = Except.ok r → r.oid ≠ self.oid) ∧
      (∀ st : DisplayState, (self.set_state ctr st).1 = self ∧
        (self.set_state ctr st).2.1.oid ≠ self.oid) ∧
      (∀ v : View, (self.add_view ctr v).1 = self ∧
        (self.add_view ctr v).2.1.oid ≠ self.oid) ∧
      (∀ (vns : List String) (dirs : Option (List String)) (add : Bool),
        (self.set_default_sort ctr vns dirs add).1 = self ∧
        ∀ r, (self.set_default_sort ctr vns dirs add).2.1 = Except.ok r →
          r.oid ≠ self.oid) ∧
      (∀ (fl : List FilterStateV) (add : Bool),
        (self.set_default_filters ctr fl add).1 = self ∧
        ∀ r, (self.set_default_filters ctr fl add).2.1 = Except.ok r →
          r.oid ≠ self.oid) ∧
      (∀ pn : String, (self.set_primary_panel ctr pn).1 = self ∧
        ∀ r, (self.set_primary_panel ctr pn).2.1 = Except.ok r →
          r.oid ≠ self.oid) ∧
      (∀ pod : List (String × PanelOptions),
        (self.set_panel_options ctr pod).1 = self ∧
        (self.set_panel_options ctr pod).2.1.oid ≠ self.oid) := by
  intro self ctr hlt
  have hne : ctr ≠ self.oid := by omega
  have hne1 : ctr + 1 ≠ self.oid := by omega
  refine ⟨fun p => ⟨rfl, hne⟩, ?_, fun st => ⟨rfl, hne⟩, fun v => ⟨rfl, hne⟩,
    ?_, ?_, ?_, fun pod => ⟨rfl, hne⟩⟩
  · intro m
    constructor
    · unfold TrObj.set_meta TrObj.deepcopy
      dsimp only
      split <;> rfl
    · intro r hr
      unfold TrObj.set_meta TrObj.deepcopy at hr
      dsimp only at hr
      split at hr
      · cases hr
      · cases hr
        exact hne
  · intro vns dirs add
    constructor
    · unfold TrObj.set_default_sort TrObj.set_state TrObj.deepcopy
      dsimp only
      split
      · rfl
      · split <;> rfl
    · intro r hr
      unfold TrObj.set_default_sort TrObj.set_state TrObj.deepcopy at hr
      dsimp only at hr
      split at hr
      · cases hr
      · split at hr
        · cases hr
        · cases hr
          exact hne1
  · intro fl add
    constructor
    · unfold TrObj.set_default_filters TrObj.set_state TrObj.deepcopy
      dsimp only
      split <;> rfl
    · intro r hr
      unfold TrObj.set_default_filters TrObj.set_state TrObj.deepcopy at hr
      dsimp only at hr
      split at hr
      · cases hr
      · cases hr
        exact hne1
  · intro pn
    constructor
    · unfold TrObj.set_primary_panel TrObj.deepcopy
      dsimp only
      split <;> rfl
    · intro r hr
      unfold TrObj.set_primary_panel TrObj.deepcopy at hr
      dsimp only at hr
      split at hr
      · cases hr
        exact hne
      · cases hr

/-- Concrete orchestrator object for the C1 witness. -/
def trC1 : TrObj :=
  { oid := 0,
    val := { data_frame := { cols := [] }, name := "w",
             panels := [("img", ImagePanel.mk "img" (FilePanelSource true))] } }

/-- Witness for C1 at a concrete object, id counter 1. -/
theorem c1_copy_on_write_witness :
    (trC1.add_panel 1 (ImagePanel.mk "p2" (FilePanelSource true))).1 = trC1 ∧
    (trC1.add_panel 1 (ImagePanel.mk "p2" (FilePanelSource true))).2.1.oid ≠ trC1.oid :=
  (c1_copy_on_write trC1 1 (by decide)).1 (ImagePanel.mk "p2" (FilePanelSource true))

/-- The greedy loop returns `[]` exactly when no (nonempty) prefix of the
remaining columns, appended to the accumulator, is unique. -/
theorem uniqueColsLoop_empty_iff (df : DataFrame) (rest : List String) :
    ∀ acc, (uniqueColsLoop df acc rest = [] ↔
      ∀ k, 0 < k → k ≤ rest.length →
        indexIsUnique df (acc ++ rest.take k) = false) := by
  induction rest with
  | nil =>
    intro acc
    constructor
    · intro _ k hk hk0
      have hk0z : k = 0 := by simpa using hk0
      exact absurd hk0z (by omega)
    · intro _
      rfl
  | cons c t ih =>
    intro acc
    simp only [uniqueColsLoop]
    by_cases hU : indexIsUnique df (acc ++ [c]) = true
    · rw [if_pos hU]
      constructor
      · intro h
        exact absurd h (by simp)
      · intro hR
        have h1 := hR 1 (by omega) (by simp)
        simp only [List.take_succ_cons, List.take_zero] at h1
        rw [h1] at hU
        cases hU
    · have hUf : indexIsUnique df (acc ++ [c]) = false := by
        simpa using hU
      rw [if_neg hU]
      rw [ih (acc ++ [c])]
      constructor
      · intro hL k hk hkt
        match k, hk with
        | 1, _ =>
          simpa using hUf
        | Nat.succ (Nat.succ j), _ =>
          have hgoal : acc ++ (c :: t).take (j + 2) = (acc ++ [c]) ++ t.take (j + 1) := by
            simp [List.take_succ_cons, List.append_assoc]
          rw [hgoal]
          exact hL (j + 1) (by omega) (by simpa using hkt)
      · intro hR k hk hkt
        have hgoal : (acc ++ [c]) ++ t.take k = acc ++ (c :: t).take (k + 1) := by
          simp [List.take_succ_cons, List.append_assoc]
        rw [hgoal]
        exact hR (k + 1) (by omega) (by simpa using hkt)

/-- When the greedy loop returns a nonempty list, it is the accumulator
extended by the shortest prefix of the remaining columns that makes the
combination unique. -/
theorem uniqueColsLoop_spec (df : DataFrame) (rest : List String) :
    ∀ acc r, uniqueColsLoop df acc rest = r → r ≠ [] →
      ∃ k, 0 < k ∧ k ≤ rest.length ∧ r = acc ++ rest.take k ∧
        indexIsUnique df r = true ∧
        ∀ j, 0 < j → j < k → indexIsUnique df (acc ++ rest.take j) = false := by
  induction rest with
  | nil =>
    intro acc r hr hne
    exact absurd hr.symm hne
  | cons c t ih =>
    intro acc r hr hne
    simp only [uniqueColsLoop] at hr
    by_cases hU : indexIsUnique df (acc ++ [c]) = true
    · rw [if_pos hU] at hr
      refine ⟨1, by omega, by simp, ?_, ?_, ?_⟩
      · simpa using hr.symm
      · rw [← hr]
        exact hU
      · intro j hj hj1
        exact absurd hj1 (by omega)
    · have hUf : indexIsUnique df (acc ++ [c]) = false := by
        simpa using hU
      rw [if_neg hU] at hr
      obtain ⟨k, hk, hkt, hreq, hru, hmin⟩ := ih (acc ++ [c]) r hr hne
      refine ⟨k + 1, by omega, by simpa using hkt, ?_, hru, ?_⟩
      · rw [hreq]
        simp [List.take_succ_cons, List.append_assoc]
      · intro j hj hjk
        match j, hj with
        | 1, _ =>
          simpa using hUf
        | Nat.succ (Nat.succ i), _ =>
          have hgoal : acc ++ (c :: t).take (i + 2) = (acc ++ [c]) ++ t.take (i + 1) := by
            simp [List.take_succ_cons, List.append_assoc]
          rw [hgoal]
          exact hmin (i + 1) (by omega) (by omega)

/-- C5: when no facet columns, no explicit key columns, and no group-by
index are present, `_get_key_cols` succeeds exactly with the greedy
first-unique prefix of string columns followed by numeric columns (in that
fixed order), and raises the "could not find columns that uniquely define
each row" error exactly when no nonempty prefix of all string+numeric
columns is unique. -/
theorem c5_key_column_inference :
    ∀ tr : Trelliscope,
      tr.facet_cols = none → tr.key_cols = none →
      tr.data_frame.groupedBy = [] →
      (∀ l, tr.get_key_cols = Except.ok l →
        ∃ k, 0 < k ∧
          k ≤ (get_string_columns tr.data_frame ++ get_numeric_columns tr.data_frame).length ∧
          l = (get_string_columns tr.data_frame ++ get_numeric_columns tr.data_frame).take k ∧
          indexIsUnique tr.data_frame l = true ∧
          (∀ j, 0 < j → j < k →
            indexIsUnique tr.data_frame
              ((get_string_columns tr.data_frame ++ get_numeric_columns tr.data_frame).take j) = false)) ∧
      (tr.get_key_cols =
          Except.error "Could not find columns of the data that uniquely define each row." ↔
        ∀ k, 0 < k →
          k ≤ (get_string_columns tr.data_frame ++ get_numeric_columns tr.data_frame).length →
          indexIsUnique tr.data_frame
            ((get_string_columns tr.data_frame ++ get_numeric_columns tr.data_frame).take k) = false) := by
  intro tr hfc hkc hgb
  have hgrouped : is_dataframe_grouped tr.data_frame = false := by
    simp [is_dataframe_grouped, hgb]
  have hunfold : tr.get_key_cols =
      (if (get_uniquely_identifying_cols tr.data_frame).length = 0 then
        Except.error "Could not find columns of the data that uniquely define each row."
      else Except.ok (get_uniquely_identifying_cols tr.data_frame)) := by
    unfold Trelliscope.get_key_cols
    rw [hfc, hkc]
    simp [hgrouped]
  constructor
  · intro l hl
    rw [hunfold] at hl
    by_cases hz : (get_uniquely_identifying_cols tr.data_frame).length = 0
    · rw [if_pos hz] at hl
      cases hl
    · rw [if_neg hz] at hl
      cases hl
      have hne : get_uniquely_identifying_cols tr.data_frame ≠ [] := by
        intro h
        exact hz (by simp [h])
      have := uniqueColsLoop_spec tr.data_frame
        (get_string_columns tr.data_frame ++ get_numeric_columns tr.data_frame)
        [] (get_uniquely_identifying_cols tr.data_frame) rfl hne
      simpa using this
  · rw [hunfold]
    by_cases hz : (get_uniquely_identifying_cols tr.data_frame).length = 0
    · rw [if_pos hz]
      have hnil : get_uniquely_identifying_cols tr.data_frame = [] :=
        List.length_eq_zero.mp hz
      refine ⟨fun _ => ?_, fun _ => rfl⟩
      intro k hk hkl
      have := (uniqueColsLoop_empty_iff tr.data_frame
        (get_string_columns tr.data_frame ++ get_numeric_columns tr.data_frame) []).mp
        hnil k hk hkl
      simpa using this
    · rw [if_neg hz]
      constructor
      · intro h
        cases h
      · intro hall
        have : uniqueColsLoop tr.data_frame []
            (get_string_columns tr.data_frame ++ get_numeric_columns tr.data_frame) = [] := by
          rw [uniqueColsLoop_empty_iff]
          intro k hk hkl
          simpa using hall k hk hkl
        exact absurd (by simpa using congrArg List.length this) hz

/-- Concrete dataframe for the C5 witness: `name` (string, unique) and
`size` (numeric). -/
def dfC5 : DataFrame :=
  { cols := [("name", { dtype := Dtype.objectDt,
                        values := [CellValue.strV "apple", CellValue.strV "banana"] }),
             ("size", { dtype := Dtype.numericDt,
                        values := [CellValue.numV 1, CellValue.numV 3] })] }

/-- Concrete orchestrator for the C5 witness. -/
def trC5 : Trelliscope :=
  { data_frame := dfC5, name := "fruit" }

/-- Witness for C5: on `dfC5` the key columns come out as `["name"]`, the
first unique greedy prefix. -/
theorem c5_key_column_inference_witness :
    ∃ k, 0 < k ∧
      k ≤ (get_string_columns trC5.data_frame ++ get_numeric_columns trC5.data_frame).length ∧
      ["name"] = (get_string_columns trC5.data_frame ++ get_numeric_columns trC5.data_frame).take k ∧
      indexIsUnique trC5.data_frame ["name"] = true ∧
      ∀ j, 0 < j → j < k →
        indexIsUnique trC5.data_frame
          ((get_string_columns trC5.data_frame ++ get_numeric_columns trC5.data_frame).take j) = false :=
  (c5_key_column_inference trC5 rfl rfl rfl).1 ["name"] (by rfl)

/-- When every filter varname has a meta, the metatype-assignment loop
succeeds and maps each filter pointwise. -/
theorem assignFilterMetatypes_eq (metas : List (String × Meta)) :
    ∀ fl : List (String × FilterStateV),
      (∀ p ∈ fl, (odLookup metas p.1).isSome) →
      assignFilterMetatypes metas fl =
        Except.ok (fl.map (fun p =>
          (p.1, { p.2 with metatype := (odLookup metas p.1).map Meta.type }))) := by
  intro fl
  induction fl with
  | nil =>
    intro _
    rfl
  | cons p t ih =>
    intro h
    obtain ⟨k, f⟩ := p
    obtain ⟨m, hm⟩ := Option.isSome_iff_exists.mp (h (k, f) (by simp))
    have ht := ih (fun q hq => h q (by simp [hq]))
    simp only [assignFilterMetatypes, hm, ht, List.map_cons]
    simp [Except.bind, bind, hm]

/-- Sort counterpart of `assignFilterMetatypes_eq`. -/
theorem assignSortMetatypes_eq (metas : List (String × Meta)) :
    ∀ sl : List (String × SortStateV),
      (∀ p ∈ sl, (odLookup metas p.1).isSome) →
      assignSortMetatypes metas sl =
        Except.ok (sl.map (fun p =>
          (p.1, { p.2 with metatype := (odLookup metas p.1).map Meta.type }))) := by
  intro sl
  induction sl with
  | nil =>
    intro _
    rfl
  | cons p t ih =>
    intro h
    obtain ⟨k, f⟩ := p
    obtain ⟨m, hm⟩ := Option.isSome_iff_exists.mp (h (k, f) (by simp))
    have ht := ih (fun q hq => h q (by simp [hq]))
    simp only [assignSortMetatypes, hm, ht, List.map_cons]
    simp [Except.bind, bind, hm]

/-- The per-entry transformation performed by the factor-translation loop
of `_infer_state` on an entry whose meta exists and (when needed) has
levels. -/
def translateOne (metas : List (String × Meta)) (p : String × FilterStateV) :
    FilterStateV :=
  match odLookup metas p.1 with
  | none => p.2
  | some m =>
    if p.2.filtertype = "category" ∧ m.type = "factor" then
      match p.2.values with
      | some vs =>
        if vs.length > 0 then
          { p.2 with values := some ((m.levels.getD []).dedup.filter (fun x => x ∈ vs)) }
        else p.2
      | none => p.2
    else p.2

/-- When every entry's meta exists and has levels where the translation
needs them, the translation loop succeeds and acts pointwise. -/
theorem translateFactorFilters_eq (metas : List (String × Meta)) :
    ∀ fl : List (String × FilterStateV),
      (∀ p ∈ fl, ∃ m, odLookup metas p.1 = some m ∧
        (p.2.filtertype = "category" → m.type = "factor" →
          ∀ vs, p.2.values = some vs → vs ≠ [] → m.levels ≠ none)) →
      translateFactorFilters metas fl =
        Except.ok (fl.map (fun p => (p.1, translateOne metas p))) := by
  intro fl
  induction fl with
  | nil =>
    intro _
    rfl
  | cons p t ih =>
    intro h
    obtain ⟨k, f⟩ := p
    obtain ⟨m, hm, hlv⟩ := h (k, f) (by simp)
    have ht := ih (fun q hq => h q (by simp [hq]))
    simp only [translateFactorFilters, hm, ht, List.map_cons]
    by_cases hc : f.filtertype = "category" ∧ m.type = "factor"
    · cases hv : f.values with
      | none =>
        have h1 : translateOne metas (k, f) = f := by
          simp [translateOne, hm, hc, hv]
        simp [hc, hv, Except.bind, bind, h1]
      | some vs =>
        by_cases hl : vs.length > 0
        · have hvs : vs ≠ [] := by
            intro hnil
            rw [hnil] at hl
            simp at hl
          obtain ⟨lv, hlveq⟩ :=
            Option.ne_none_iff_exists'.mp (hlv hc.1 hc.2 vs hv hvs)
          have h1 : translateOne metas (k, f) =
              { f with values := some (lv.dedup.filter (fun x => x ∈ vs)) } := by
            simp [translateOne, hm, hc, hv, hl, hlveq]
          simp [hc, hv, hl, hlveq, Except.bind, bind, h1]
        · have h1 : translateOne metas (k, f) = f := by
            simp [translateOne, hm, hc, hv, hl]
          simp [hc, hv, hl, Except.bind, bind, h1]
    · have h1 : translateOne metas (k, f) = f := by
        simp [translateOne, hm, hc]
      simp [hc, Except.bind, bind, h1]

/-- Behavior of the factor-translation step on a single entry with an
existing meta: `metatype` (and everything except possibly `values`) is
untouched; `values` is rewritten only for a non-empty category filter
paired with a factor meta. -/
theorem translateOne_spec (metas : List (String × Meta)) (k : String)
    (f : FilterStateV) (m : Meta) (hm : odLookup metas k = some m) :
    (translateOne metas (k, f)).metatype = f.metatype ∧
    (f.values = none → translateOne metas (k, f) = f) ∧
    (f.values = some [] → translateOne metas (k, f) = f) ∧
    (¬(f.filtertype = "category" ∧ m.type = "factor") →
      translateOne metas (k, f) = f) ∧
    (∀ vs lv, f.values = some vs → vs ≠ [] → f.filtertype = "category" →
      m.type = "factor" → m.levels = some lv →
      translateOne metas (k, f) =
        { f with values := some (lv.dedup.filter (fun x => x ∈ vs)) }) := by
  unfold translateOne
  simp only [hm]
  by_cases hc : f.filtertype = "category" ∧ m.type = "factor"
  · cases hv : f.values with
    | none =>
      refine ⟨by simp [hc, hv], fun _ => by simp [hc, hv], ?_, ?_, ?_⟩
      · intro h0
        simp at h0
      · intro hnc
        exact absurd hc hnc
      · intro vs lv hvs
        simp at hvs
    | some vs =>
      by_cases hl : vs.length > 0
      · refine ⟨by simp [hc, hv, hl], ?_, ?_, ?_, ?_⟩
        · intro h0
          simp at h0
        · intro h0
          simp only [Option.some.injEq] at h0
          subst h0
          simp at hl
        · intro hnc
          exact absurd hc hnc
        · intro vs2 lv hvs2 hne _ _ hlv
          simp only [Option.some.injEq] at hvs2
          subst hvs2
          simp [hc, hl, hlv]
      · refine ⟨by simp [hc, hv, hl], ?_, ?_, ?_, ?_⟩
        · intro h0
          simp at h0
        · intro _
          simp [hc, hv, hl]
        · intro hnc
          exact absurd hc hnc
        · intro vs2 lv hvs2 hne _ _ _
          simp only [Option.some.injEq] at hvs2
          subst hvs2
          have hlen : vs.length = 0 := by omega
          exact absurd (List.eq_nil_of_length_eq_zero hlen) hne
  · refine ⟨by simp [hc], fun _ => by simp [hc], fun _ => by simp [hc],
      fun _ => by simp [hc], ?_⟩
    intro vs lv _ _ hcat hfac _
    exact absurd ⟨hcat, hfac⟩ hc

/-- C6: CategoryFilterState reconciliation by `_infer_state`.  Under the
hypotheses that every filter varname (and sort varname) has a registered
meta, and factor metas hit by the translation carry levels: the method
does not mutate the input state object (first component), it succeeds, and
for every filter entry: `metatype` becomes the meta's type; a filter whose
`values` is `None` or `[]` keeps its `values` unchanged; a category filter
paired with a factor meta and non-empty values gets, as a set, the
intersection of its previous values with the meta's levels; and a filter
not paired category-with-factor keeps its `values`. -/
theorem c6_infer_state_reconciliation :
    ∀ (tr : Trelliscope) (state : DisplayState) (viewName : Option String),
      (∀ p ∈ state.filter, ∃ m, odLookup tr.metas p.1 = some m ∧
        (p.2.filtertype = "category" → m.type = "factor" →
          ∀ vs, p.2.values = some vs → vs ≠ [] → m.levels ≠ none)) →
      (∀ p ∈ state.sort, (odLookup tr.metas p.1).isSome) →
      (tr.infer_state state viewName).1 = state ∧
      ∃ st', (tr.infer_state state viewName).2 = Except.ok st' ∧
        ∀ k f m, (k, f) ∈ state.filter → odLookup tr.metas k = some m →
          ∃ f', (k, f') ∈ st'.filter ∧ f'.metatype = some m.type ∧
            (f.values = none → f'.values = none) ∧
            (f.values = some [] → f'.values = some []) ∧
            (∀ vs lv, f.values = some vs → vs ≠ [] → f.filtertype = "category" →
              m.type = "factor" → m.levels = some lv →
              ∃ vs', f'.values = some vs' ∧ ∀ x, x ∈ vs' ↔ x ∈ lv ∧ x ∈ vs) ∧
            (¬(f.filtertype = "category" ∧ m.type = "factor") →
              f'.values = f.values) := by
  intro tr state viewName hf hs
  have hassignF := assignFilterMetatypes_eq tr.metas state.filter
    (fun p hp => by
      obtain ⟨m, hm, _⟩ := hf p hp
      simp [hm])
  have hassignS := assignSortMetatypes_eq tr.metas state.sort hs
  have htrans := translateFactorFilters_eq tr.metas
    (state.filter.map (fun p =>
      (p.1, { p.2 with metatype := (odLookup tr.metas p.1).map Meta.type })))
    (fun q hq => by
      obtain ⟨p, hp, hpq⟩ := List.mem_map.mp hq
      obtain ⟨m, hm, hlv⟩ := hf p hp
      refine ⟨m, ?_, ?_⟩
      · rw [← hpq]
        exact hm
      · rw [← hpq]
        exact hlv)
  have hmain : ∀ k f m, (k, f) ∈ state.filter → odLookup tr.metas k = some m →
      ∃ f', (k, f') ∈ (state.filter.map (fun p =>
          (p.1, { p.2 with metatype := (odLookup tr.metas p.1).map Meta.type }))).map
            (fun p => (p.1, translateOne tr.metas p)) ∧
        f'.metatype = some m.type ∧
        (f.values = none → f'.values = none) ∧
        (f.values = some [] → f'.values = some []) ∧
        (∀ vs lv, f.values = some vs → vs ≠ [] → f.filtertype = "category" →
          m.type = "factor" → m.levels = some lv →
          ∃ vs', f'.values = some vs' ∧ ∀ x, x ∈ vs' ↔ x ∈ lv ∧ x ∈ vs) ∧
        (¬(f.filtertype = "category" ∧ m.type = "factor") → f'.values = f.values) := by
    intro k f m hmem hm
    set fMT : FilterStateV := { f with metatype := (odLookup tr.metas k).map Meta.type } with hfMT
    have hmem1 : (k, fMT) ∈ state.filter.map (fun p =>
        (p.1, { p.2 with metatype := (odLookup tr.metas p.1).map Meta.type })) := by
      have := List.mem_map_of_mem (fun p =>
        (p.1, { p.2 with metatype := (odLookup tr.metas p.1).map Meta.type })) hmem
      simpa [hfMT] using this
    have hmem2 : (k, translateOne tr.metas (k, fMT)) ∈
        (state.filter.map (fun p =>
          (p.1, { p.2 with metatype := (odLookup tr.metas p.1).map Meta.type }))).map
            (fun p => (p.1, translateOne tr.metas p)) := by
      have := List.mem_map_of_mem (fun p => (p.1, translateOne tr.metas p)) hmem1
      simpa using this
    obtain ⟨hmeta, hnone, hempty, hnc, hsome⟩ := translateOne_spec tr.metas k fMT m hm
    refine ⟨translateOne tr.metas (k, fMT), hmem2, ?_, ?_, ?_, ?_, ?_⟩
    · rw [hmeta, hfMT]
      simp [hm]
    · intro hfv
      rw [hnone (by simp [hfMT, hfv])]
      simp [hfMT, hfv]
    · intro hfv
      rw [hempty (by simp [hfMT, hfv])]
      simp [hfMT, hfv]
    · intro vs lv hvs hne hcat hfac hlv
      rw [hsome vs lv (by simp [hfMT, hvs]) hne (by simp [hfMT, hcat]) hfac hlv]
      refine ⟨lv.dedup.filter (fun x => x ∈ vs), by simp, ?_⟩
      intro x
      simp [List.mem_filter, List.mem_dedup]
    · intro hncf
      rw [hnc (by simpa [hfMT] using hncf)]
  have hfin : ∀ st2 : DisplayState,
      tr.infer_state state viewName = (state, Except.ok st2) →
      st2.filter = (state.filter.map (fun p =>
          (p.1, { p.2 with metatype := (odLookup tr.metas p.1).map Meta.type }))).map
            (fun p => (p.1, translateOne tr.metas p)) →
      (tr.infer_state state viewName).1 = state ∧
      ∃ st', (tr.infer_state state viewName).2 = Except.ok st' ∧
        ∀ k f m, (k, f) ∈ state.filter → odLookup tr.metas k = some m →
          ∃ f', (k, f') ∈ st'.filter ∧ f'.metatype = some m.type ∧
            (f.values = none → f'.values = none) ∧
            (f.values = some [] → f'.values = some []) ∧
            (∀ vs lv, f.values = some vs → vs ≠ [] → f.filtertype = "category" →
              m.type = "factor" → m.levels = some lv →
              ∃ vs', f'.values = some vs' ∧ ∀ x, x ∈ vs' ↔ x ∈ lv ∧ x ∈ vs) ∧
            (¬(f.filtertype = "category" ∧ m.type = "factor") →
              f'.values = f.values) := by
    intro st2 heq hfl
    refine ⟨by rw [heq], st2, by rw [heq], ?_⟩
    rw [hfl]
    exact hmain
  cases hL : state.layout with
  | none =>
    cases hLb : state.labels with
    | none =>
      exact hfin _ (by simp only [Trelliscope.infer_state, hL, hLb, hassignF,
        hassignS, htrans]; rfl) rfl
    | some lb =>
      exact hfin _ (by simp only [Trelliscope.infer_state, hL, hLb, hassignF,
        hassignS, htrans]; rfl) rfl
  | some l =>
    cases hLb : state.labels with
    | none =>
      exact hfin _ (by simp only [Trelliscope.infer_state, hL, hLb, hassignF,
        hassignS, htrans]; rfl) rfl
    | some lb =>
      exact hfin _ (by simp only [Trelliscope.infer_state, hL, hLb, hassignF,
        hassignS, htrans]; rfl) rfl

/-- FactorMeta with levels a, b, c for the C6 witness. -/
def metaC6 : Meta :=
  { type := "factor", varname := "cat", filterable := true, sortable := true,
    label := some "cat", tags := [], levels := some ["a", "b", "c"] }

/-- CategoryFilterState with values ["a", "x"] for the C6 witness. -/
def filterC6 : FilterStateV :=
  CategoryFilterState.mk "cat" none (some ["a", "x"])

/-- Orchestrator for the C6 witness. -/
def trC6 : Trelliscope :=
  { data_frame := { cols := [] }, name := "t", key_cols := some ["cat"],
    metas := [("cat", metaC6)] }

/-- Display state holding the category filter for the C6 witness. -/
def stateC6 : DisplayState :=
  { filter := [("cat", filterC6)] }

/-- Witness for C6: the filter values ["a","x"] against levels
["a","b","c"] become the intersection (exactly the elements in both). -/
theorem c6_infer_state_reconciliation_witness :
    (trC6.infer_state stateC6 none).1 = stateC6 ∧
    ∃ st' f', (trC6.infer_state stateC6 none).2 = Except.ok st' ∧
      ("cat", f') ∈ st'.filter ∧
      ∃ vs', f'.values = some vs' ∧
        ∀ x, x ∈ vs' ↔ x ∈ ["a", "b", "c"] ∧ x ∈ ["a", "x"] := by
  have hf : ∀ p ∈ stateC6.filter, ∃ m, odLookup trC6.metas p.1 = some m ∧
      (p.2.filtertype = "category" → m.type = "factor" →
        ∀ vs, p.2.values = some vs → vs ≠ [] → m.levels ≠ none) := by
    intro p hp
    have hp2 : p = ("cat", filterC6) := by simpa [stateC6] using hp
    subst hp2
    exact ⟨metaC6, rfl, fun _ _ vs _ _ => by simp [metaC6]⟩
  have hs : ∀ p ∈ stateC6.sort, (odLookup trC6.metas p.1).isSome = true := by
    intro p hp
    simp [stateC6] at hp
  obtain ⟨h1, st', h2, h3⟩ :=
    c6_infer_state_reconciliation trC6 stateC6 none hf hs
  obtain ⟨f', hmem, _, _, _, hsome, _⟩ :=
    h3 "cat" filterC6 metaC6 (by simp [stateC6]) rfl
  obtain ⟨vs', hvs', hiff⟩ :=
    hsome ["a", "x"] ["a", "b", "c"] rfl (by simp) rfl rfl rfl
  exact ⟨h1, st', f', h2, hmem, vs', hvs', hiff⟩

/-- The panel `infer_panels` creates for a figure column (no panel
options): a FigurePanel with a local file source. -/
def figPanelFor (c : String) : Panel :=
  FigurePanel.mk c { ptype := "file", is_local := true }

/-- The panel `infer_panels` creates for an image column (no panel
options): an ImagePanel whose locality (and copy flag) is the negation of
the all-remote heuristic. -/
def imgPanelFor (df : DataFrame) (c : String) : Panel :=
  let isLocal :=
    match df.lookup c with
    | some col => !is_all_remote col
    | none => true
  ImagePanel.mk c { ptype := "file", is_local := isLocal } (3 / 2) isLocal

/-- `create_panel` on a known figure column with no options. -/
theorem create_panel_fig (df : DataFrame) (c : String) :
    Panel.create_panel df c none true false = Except.ok (figPanelFor c) := rfl

/-- `create_panel` on a known image column with no options. -/
theorem create_panel_img (df : DataFrame) (c : String) :
    Panel.create_panel df c none false true = Except.ok (imgPanelFor df c) := rfl

/-- `_infer_primary_panel` never touches the panels mapping. -/
theorem infer_primary_panel_panels (t : Trelliscope) :
    (Trelliscope.infer_primary_panel t).panels = t.panels := by
  unfold Trelliscope.infer_primary_panel
  split <;> rfl

/-- The figure loop of `infer_panels` appends one FigurePanel per column
when the names are fresh and distinct and no panel options exist. -/
theorem inferPanelsFigLoop_eq :
    ∀ (cols : List String) (tr : Trelliscope),
      tr.panel_options = [] →
      (∀ c ∈ cols, c ∉ odKeys tr.panels) →
      cols.Nodup →
      inferPanelsFigLoop tr cols =
        Except.ok { tr with panels := tr.panels ++ cols.map (fun c => (c, figPanelFor c)) } := by
  intro cols
  induction cols with
  | nil =>
    intro tr _ _ _
    simp [inferPanelsFigLoop]
  | cons c rest ih =>
    intro tr hpo hfresh hnod
    have hopt : tr.get_panel_options_for c = none := by
      simp [Trelliscope.get_panel_options_for, hpo, odLookup]
    have hadd : tr.add_panel (figPanelFor c) =
        { tr with panels := tr.panels ++ [(c, figPanelFor c)] } := by
      unfold Trelliscope.add_panel
      rw [odSet_of_not_mem]
      · rfl
      · intro p hp hpc
        have hpc2 : p.1 = c := hpc
        exact hfresh c (by simp) (by
          rw [← hpc2]
          exact List.mem_map_of_mem Prod.fst hp)
    have hstep : inferPanelsFigLoop tr (c :: rest) =
        inferPanelsFigLoop (tr.add_panel (figPanelFor c)) rest := by
      simp only [inferPanelsFigLoop, hopt, create_panel_fig]
    rw [hstep, hadd]
    rw [ih { tr with panels := tr.panels ++ [(c, figPanelFor c)] } hpo ?hfr ?hnd]
    case hfr =>
      intro d hd
      simp only [odKeys, List.map_append]
      intro hmem
      rcases List.mem_append.mp hmem with h1 | h1
      · exact hfresh d (by simp [hd]) h1
      · simp at h1
        rw [h1] at hd
        exact (List.nodup_cons.mp hnod).1 hd
    case hnd => exact (List.nodup_cons.mp hnod).2
    simp

/-- The image loop of `infer_panels` appends one ImagePanel per column. -/
theorem inferPanelsImgLoop_eq :
    ∀ (cols : List String) (tr : Trelliscope),
      tr.panel_options = [] →
      (∀ c ∈ cols, c ∉ odKeys tr.panels) →
      cols.Nodup →
      inferPanelsImgLoop tr cols =
        Except.ok { tr with panels :=
          tr.panels ++ cols.map (fun c => (c, imgPanelFor tr.data_frame c)) } := by
  intro cols
  induction cols with
  | nil =>
    intro tr _ _ _
    simp [inferPanelsImgLoop]
  | cons c rest ih =>
    intro tr hpo hfresh hnod
    have hopt : tr.get_panel_options_for c = none := by
      simp [Trelliscope.get_panel_options_for, hpo, odLookup]
    have hadd : tr.add_panel (imgPanelFor tr.data_frame c) =
        { tr with panels := tr.panels ++ [(c, imgPanelFor tr.data_frame c)] } := by
      unfold Trelliscope.add_panel
      rw [odSet_of_not_mem]
      · rfl
      · intro p hp hpc
        have hpc2 : p.1 = c := hpc
        exact hfresh c (by simp) (by
          rw [← hpc2]
          exact List.mem_map_of_mem Prod.fst hp)
    have hstep : inferPanelsImgLoop tr (c :: rest) =
        inferPanelsImgLoop (tr.add_panel (imgPanelFor tr.data_frame c)) rest := by
      simp only [inferPanelsImgLoop, hopt, create_panel_img]
    rw [hstep, hadd]
    rw [ih { tr with panels := tr.panels ++ [(c, imgPanelFor tr.data_frame c)] } hpo ?hfr ?hnd]
    case hfr =>
      intro d hd
      simp only [odKeys, List.map_append]
      intro hmem
      rcases List.mem_append.mp hmem with h1 | h1
      · exact hfresh d (by simp [hd]) h1
      · simp at h1
        rw [h1] at hd
        exact (List.nodup_cons.mp hnod).1 hd
    case hnd => exact (List.nodup_cons.mp hnod).2
    simp

/-- Membership in `find_figure_columns` means the predicate holds. -/
theorem mem_find_figure_columns (df : DataFrame) (c : String) :
    c ∈ find_figure_columns df → is_figure_column df c = true := by
  intro h
  simp only [find_figure_columns, List.mem_map, List.mem_filter] at h
  obtain ⟨p, ⟨_, hfig⟩, hpc⟩ := h
  rw [← hpc]
  exact hfig

/-- Membership in `find_image_columns` means the predicate holds. -/
theorem mem_find_image_columns (df : DataFrame) (c : String) :
    c ∈ find_image_columns df → is_image_column df c = true := by
  intro h
  simp only [find_image_columns, List.mem_map, List.mem_filter] at h
  obtain ⟨p, ⟨_, himg⟩, hpc⟩ := h
  rw [← hpc]
  exact himg

/-- A column cannot be both a figure column and an image column: the first
value would have to be both a `Figure` and a `str`. -/
theorem figure_image_disjoint (df : DataFrame) (c : String) :
    is_figure_column df c = true → is_image_column df c = true → False := by
  intro hfig himg
  unfold is_figure_column at hfig
  unfold is_image_column at himg
  cases hl : df.lookup c with
  | none =>
    simp only [hl] at hfig
    cases hfig
  | some col =>
    simp only [hl] at hfig himg
    cases hh : col.values.head? with
    | none =>
      simp only [hh] at hfig
      cases hfig
    | some v =>
      simp only [hh] at hfig himg
      cases v with
      | strV s => simp [CellValue.isFigure] at hfig
      | numV n => simp at himg
      | figureV fid => simp at himg
      | objV oid => simp at himg

/-- The names produced by `find_figure_columns` are distinct when the
dataframe's column names are. -/
theorem find_figure_columns_nodup (df : DataFrame)
    (h : df.names.Nodup) : (find_figure_columns df).Nodup := by
  unfold find_figure_columns
  have hsub : (((df.cols.filter (fun p => is_object_dtype p.2)).filter
      (fun p => is_figure_column df p.1)).map (fun p => p.1)).Sublist
      (df.cols.map (fun p => p.1)) :=
    List.Sublist.map _ ((List.filter_sublist _).trans (List.filter_sublist _))
  exact (h.sublist hsub : _)

/-- The names produced by `find_image_columns` are distinct when the
dataframe's column names are. -/
theorem find_image_columns_nodup (df : DataFrame)
    (h : df.names.Nodup) : (find_image_columns df).Nodup := by
  unfold find_image_columns
  have hsub : (((df.cols.filter (fun p => is_string_column p.2)).filter
      (fun p => is_image_column df p.1)).map (fun p => p.1)).Sublist
      (df.cols.map (fun p => p.1)) :=
    List.Sublist.map _ ((List.filter_sublist _).trans (List.filter_sublist _))
  exact (h.sublist hsub : _)

/-- Shape of `infer_panels` when no panels are registered: it runs the two
loops and possibly re-infers the primary panel, which never changes the
panels mapping. -/
theorem infer_panels_eq_of (tr tr1 tr2 : Trelliscope)
    (hlen : tr.get_panel_columns.length = 0)
    (hfig : inferPanelsFigLoop tr (find_figure_columns tr.data_frame) = Except.ok tr1)
    (himg : inferPanelsImgLoop tr1 (find_image_columns tr1.data_frame) = Except.ok tr2) :
    ∃ trOut, (tr.infer_panels).2 = Except.ok trOut ∧ trOut.panels = tr2.panels := by
  unfold Trelliscope.infer_panels
  simp only [hlen, hfig, himg]
  refine ⟨_, rfl, ?_⟩
  split
  · exact infer_primary_panel_panels tr2
  · rfl

/-- Every FigurePanel entry passes the writeable filter. -/
theorem figmap_filter_writeable (cols : List String) :
    (cols.map (fun c => (c, figPanelFor c))).filter (fun p => p.2.is_writeable) =
      cols.map (fun c => (c, figPanelFor c)) := by
  rw [List.filter_eq_self]
  intro p hp
  obtain ⟨c, _, rfl⟩ := List.mem_map.mp hp
  rfl

/-- No ImagePanel entry passes the writeable filter. -/
theorem imgmap_filter_writeable (df : DataFrame) (cols : List String) :
    (cols.map (fun c => (c, imgPanelFor df c))).filter (fun p => p.2.is_writeable) = [] := by
  rw [List.filter_eq_nil_iff]
  intro p hp
  obtain ⟨c, _, rfl⟩ := List.mem_map.mp hp
  simp [imgPanelFor, ImagePanel.mk]

/-- No FigurePanel entry passes the is-image filter. -/
theorem figmap_filter_image (cols : List String) :
    (cols.map (fun c => (c, figPanelFor c))).filter (fun p => p.2.is_image) = [] := by
  rw [List.filter_eq_nil_iff]
  intro p hp
  obtain ⟨c, _, rfl⟩ := List.mem_map.mp hp
  simp [figPanelFor, FigurePanel.mk]

/-- Every ImagePanel entry passes the is-image filter. -/
theorem imgmap_filter_image (df : DataFrame) (cols : List String) :
    (cols.map (fun c => (c, imgPanelFor df c))).filter (fun p => p.2.is_image) =
      cols.map (fun c => (c, imgPanelFor df c)) := by
  rw [List.filter_eq_self]
  intro p hp
  obtain ⟨c, _, rfl⟩ := List.mem_map.mp hp
  rfl

/-- Shared characterization: with no registered panels or panel options
and distinct column names, `infer_panels` creates one panel per qualifying
column of each kind. -/
theorem infer_panels_creates_per_column :
    ∀ tr : Trelliscope,
      tr.panels = [] → tr.panel_options = [] → tr.data_frame.names.Nodup →
      ∃ trOut, (tr.infer_panels).2 = Except.ok trOut ∧
        trOut.panels =
          (find_figure_columns tr.data_frame).map (fun c => (c, figPanelFor c)) ++
            (find_image_columns tr.data_frame).map
              (fun c => (c, imgPanelFor tr.data_frame c)) ∧
        (trOut.panels.filter (fun p => p.2.is_writeable)).map Prod.fst =
          find_figure_columns tr.data_frame ∧
        (trOut.panels.filter (fun p => p.2.is_image)).map Prod.fst =
          find_image_columns tr.data_frame := by
  intro tr hpan hpo hnd
  have hlen : tr.get_panel_columns.length = 0 := by
    simp [Trelliscope.get_panel_columns, hpan, odKeys]
  have hfig := inferPanelsFigLoop_eq (find_figure_columns tr.data_frame) tr hpo
    (by
      intro c hc
      simp [hpan, odKeys])
    (find_figure_columns_nodup _ hnd)
  set tr1 : Trelliscope := { tr with panels := tr.panels ++ (find_figure_columns tr.data_frame).map (fun c => (c, figPanelFor c)) } with htr1
  have himg := inferPanelsImgLoop_eq (find_image_columns tr.data_frame) tr1
    (by simp [htr1, hpo])
    (by
      intro c hc
      simp only [htr1, odKeys, hpan, List.nil_append, List.map_map]
      intro hmem
      have hcfig : c ∈ find_figure_columns tr.data_frame := by
        simpa using hmem
      exact figure_image_disjoint tr.data_frame c
        (mem_find_figure_columns _ _ hcfig)
        (mem_find_image_columns _ _ hc))
    (find_image_columns_nodup _ hnd)
  obtain ⟨trOut, hout, hpanels⟩ := infer_panels_eq_of tr tr1 _ hlen hfig himg
  refine ⟨trOut, hout, ?_, ?_, ?_⟩
  · rw [hpanels]
    simp [htr1, hpan]
  · rw [hpanels]
    simp only [htr1]
    simp only [hpan, List.nil_append, List.filter_append, figmap_filter_writeable,
      imgmap_filter_writeable, List.append_nil, List.map_map]
    have hcomp : (Prod.fst ∘ fun c => ((c : String), figPanelFor c)) = id := rfl
    rw [hcomp, List.map_id]
  · rw [hpanels]
    simp only [htr1]
    simp only [hpan, List.nil_append, List.filter_append, figmap_filter_image,
      imgmap_filter_image, List.map_map]
    have hcomp : (Prod.fst ∘ fun c => ((c : String), imgPanelFor tr.data_frame c)) = id := rfl
    rw [hcomp, List.map_id]

/-- C3 (amended): when no Panel is pre-registered (and no panel options
are set, with distinct column names), `infer_panels` creates one
FigurePanel per qualifying figure column and one ImagePanel per qualifying
image column — it does not warn or skip on ambiguity — so when exactly one
column of a kind qualifies, exactly one panel of that kind is created, and
when several qualify, one panel per qualifying column is created. -/
theorem c3_infer_panels_amended :
    ∀ tr : Trelliscope,
      tr.panels = [] → tr.panel_options = [] → tr.data_frame.names.Nodup →
      ∃ trOut, (tr.infer_panels).2 = Except.ok trOut ∧
        trOut.panels =
          (find_figure_columns tr.data_frame).map (fun c => (c, figPanelFor c)) ++
            (find_image_columns tr.data_frame).map
              (fun c => (c, imgPanelFor tr.data_frame c)) ∧
        (trOut.panels.filter (fun p => p.2.is_writeable)).map Prod.fst =
          find_figure_columns tr.data_frame ∧
        (trOut.panels.filter (fun p => p.2.is_image)).map Prod.fst =
          find_image_columns tr.data_frame :=
  fun tr h1 h2 h3 => infer_panels_creates_per_column tr h1 h2 h3

/-- Dataframe with two qualifying figure columns for C3. -/
def dfC3 : DataFrame :=
  { cols := [("f1", { dtype := Dtype.objectDt,
                      values := [CellValue.figureV 0, CellValue.figureV 1] }),
             ("f2", { dtype := Dtype.objectDt,
                      values := [CellValue.figureV 2, CellValue.figureV 3] })] }

/-- Orchestrator over `dfC3` with no pre-registered panels. -/
def trC3 : Trelliscope :=
  { data_frame := dfC3, name := "t" }

/-- What `infer_panels` actually produces on `trC3`. -/
def trC3out : Trelliscope :=
  { trC3 with panels := [("f1", figPanelFor "f1"), ("f2", figPanelFor "f2")],
              primary_panel := some "f1" }

/-- C3 counterexample: `dfC3` has two qualifying figure columns (more than
one), no Panel is pre-registered, yet `infer_panels` creates a FigurePanel
for each of them — the panel mapping for the figure kind has two entries,
not zero as the claim states (and the method contains no warning call). -/
theorem c3_infer_panels_counterexample :
    (find_figure_columns dfC3).length = 2 ∧
    trC3.panels = [] ∧
    (trC3.infer_panels).2 = Except.ok trC3out ∧
    (trC3out.panels.filter (fun p => p.2.is_writeable)).length = 2 ∧
    ¬ trC3out.panels.filter (fun p => p.2.is_writeable) = [] :=
  ⟨by decide, rfl, by rfl, by decide, by decide⟩

/-- Witness for the amended C3 at the concrete two-figure-column input. -/
theorem c3_infer_panels_amended_witness :
    ∃ trOut, (trC3.infer_panels).2 = Except.ok trOut ∧
      trOut.panels =
        (find_figure_columns trC3.data_frame).map (fun c => (c, figPanelFor c)) ++
          (find_image_columns trC3.data_frame).map
            (fun c => (c, imgPanelFor trC3.data_frame c)) ∧
      (trOut.panels.filter (fun p => p.2.is_writeable)).map Prod.fst =
        find_figure_columns trC3.data_frame ∧
      (trOut.panels.filter (fun p => p.2.is_image)).map Prod.fst =
        find_image_columns trC3.data_frame :=
  c3_infer_panels_amended trC3 rfl rfl (by decide)

/-- C9: `is_image_column` is true iff the first value's extension is in
the fixed whitelist and every value's extension equals it
case-insensitively; consequently a (string) column mixing two different
extensions is not an image column, never appears in
`find_image_columns`, and `infer_panels` never creates a panel for it. -/
theorem c9_is_image_column_iff :
    ∀ (df : DataFrame) (colname : String) (c : Column) (s0 : String)
      (rest : List CellValue),
      df.lookup colname = some c →
      c.values = CellValue.strV s0 :: rest →
      (∀ v ∈ c.values, v.isStr = true) →
      ((is_image_column df colname = true ↔
        (get_extension s0 ∈ valid_image_extensions ∧
          ∀ s, CellValue.strV s ∈ c.values →
            strLower (get_extension s) = strLower (get_extension s0))) ∧
       (∀ a b, CellValue.strV a ∈ c.values → CellValue.strV b ∈ c.values →
          strLower (get_extension a) ≠ strLower (get_extension b) →
          is_image_column df colname = false ∧ colname ∉ find_image_columns df) ∧
       (∀ tr : Trelliscope, tr.data_frame = df → tr.panels = [] →
          tr.panel_options = [] → df.names.Nodup →
          (∃ a b, CellValue.strV a ∈ c.values ∧ CellValue.strV b ∈ c.values ∧
            strLower (get_extension a) ≠ strLower (get_extension b)) →
          ∀ trOut, (tr.infer_panels).2 = Except.ok trOut →
            odLookup trOut.panels colname = none)) := by
  intro df colname c s0 rest hlook hv hstr
  have hhead : c.values.head? = some (CellValue.strV s0) := by
    rw [hv]
    rfl
  have hiff : is_image_column df colname = true ↔
      (get_extension s0 ∈ valid_image_extensions ∧
        ∀ s, CellValue.strV s ∈ c.values →
          strLower (get_extension s) = strLower (get_extension s0)) := by
    unfold is_image_column
    simp only [hlook, hhead]
    by_cases hw : get_extension s0 ∈ valid_image_extensions
    · simp only [hw, if_pos, List.all_eq_true, true_and]
      constructor
      · intro hall s hs
        have := hall (CellValue.strV s) hs
        simpa [cell_extension_matches, extension_matches] using this
      · intro hall v hvv
        have hvs := hstr v hvv
        cases v with
        | strV s =>
          simpa [cell_extension_matches, extension_matches] using hall s hvv
        | numV n => simp [CellValue.isStr] at hvs
        | figureV fid => simp [CellValue.isStr] at hvs
        | objV oid => simp [CellValue.isStr] at hvs
    · simp [hw]
  have hmixed : ∀ a b, CellValue.strV a ∈ c.values → CellValue.strV b ∈ c.values →
      strLower (get_extension a) ≠ strLower (get_extension b) →
      is_image_column df colname = false ∧ colname ∉ find_image_columns df := by
    intro a b ha hb hne
    have hfalse : is_image_column df colname = false := by
      cases him : is_image_column df colname with
      | false => rfl
      | true =>
        obtain ⟨_, hall⟩ := hiff.mp him
        exact absurd ((hall a ha).trans (hall b hb).symm) hne
    refine ⟨hfalse, ?_⟩
    intro hmem
    rw [mem_find_image_columns df colname hmem] at hfalse
    cases hfalse
  refine ⟨hiff, hmixed, ?_⟩
  intro tr hdf hpan hpo hnd ⟨a, b, ha, hb, hne⟩ trOut hout
  obtain ⟨trOut2, hout2, hpanels, _, _⟩ :=
    infer_panels_creates_per_column tr hpan hpo (by rw [hdf]; exact hnd)
  rw [hout] at hout2
  have htr : trOut = trOut2 := by
    cases hout2
    rfl
  subst htr
  have hnotfig : colname ∉ find_figure_columns tr.data_frame := by
    intro hmemf
    have := mem_find_figure_columns _ _ hmemf
    rw [hdf] at this
    unfold is_figure_column at this
    simp [hlook, hhead, CellValue.isFigure] at this
  have hnotimg : colname ∉ find_image_columns tr.data_frame := by
    rw [hdf]
    exact (hmixed a b ha hb hne).2
  rw [hpanels]
  unfold odLookup
  rw [List.find?_eq_none.mpr]
  · rfl
  · intro p hp
    rcases List.mem_append.mp hp with h1 | h1
    · obtain ⟨d, hd, rfl⟩ := List.mem_map.mp h1
      simp only [decide_eq_true_eq]
      intro hdc
      rw [hdc] at hd
      exact hnotfig hd
    · obtain ⟨d, hd, rfl⟩ := List.mem_map.mp h1
      simp only [decide_eq_true_eq]
      intro hdc
      rw [hdc] at hd
      exact hnotimg hd

/-- Column mixing two valid image extensions for the C9 witness. -/
def colC9 : Column :=
  { dtype := Dtype.objectDt,
    values := [CellValue.strV "a.png", CellValue.strV "b.jpg"] }

/-- Dataframe for the C9 witness. -/
def dfC9 : DataFrame :=
  { cols := [("img", colC9)] }

/-- Witness for C9: a column with some ".png" and some ".jpg" paths is not
an image column and is not found by `find_image_columns`. -/
theorem c9_is_image_column_iff_witness :
    is_image_column dfC9 "img" = false ∧ "img" ∉ find_image_columns dfC9 :=
  (c9_is_image_column_iff dfC9 "img" colC9 "a.png" [CellValue.strV "b.jpg"]
    rfl rfl (by decide)).2.1 "a.png" "b.jpg" (by decide) (by decide) (by decide)

/-- The PanelMeta `_infer_meta_variable` builds for a registered panel. -/
def panelMetaFor (p : Panel) : Meta :=
  { type := "panel", varname := p.varname, filterable := false, sortable := false,
    label := none, tags := [], aspect := p.aspect_ratio,
    panel_source := some p.source, panel_type := p.panel_type_str }

/-- The FactorMeta `_infer_meta_variable` builds for a categorical column. -/
def factorMetaFor (name : String) : Meta :=
  { type := "factor", varname := name, filterable := true, sortable := true,
    label := none, tags := [], levels := none }

/-- The NumberMeta `_infer_meta_variable` builds for a numeric column. -/
def numberMetaFor (name : String) : Meta :=
  { type := "number", varname := name, filterable := true, sortable := true,
    label := none, tags := [] }

/-- The HrefMeta `_infer_meta_variable` builds for an all-http string
column. -/
def hrefMetaFor (name : String) : Meta :=
  { type := "href", varname := name, filterable := false, sortable := false,
    label := none, tags := [] }

/-- The StringMeta `_infer_meta_variable` builds for other string
columns. -/
def stringMetaFor (name : String) : Meta :=
  { type := "string", varname := name, filterable := true, sortable := true,
    label := none, tags := [] }

/-- `PanelMeta.__init__` on a well-formed panel. -/
theorem PanelMeta_mk_eq (p : Panel) (ha : p.aspect_ratio > 0)
    (ht : p.panel_type_str ∈ ["img", "iframe"]) :
    PanelMeta.mk p = Except.ok (panelMetaFor p) := by
  unfold PanelMeta.mk panelMetaFor
  simp [mkMetaBase, ha, ht, Except.bind, bind]

/-- A successfully constructed PanelMeta has type "panel". -/
theorem PanelMeta_mk_type (p : Panel) (m : Meta) :
    PanelMeta.mk p = Except.ok m → m.type = "panel" := by
  unfold PanelMeta.mk mkMetaBase
  intro h
  simp only [Except.bind, bind] at h
  split at h
  · split at h
    · cases h
      rfl
    · cases h
  · cases h

/-- `check_with_data` leaves the dataframe unchanged except for the
factor cast, which does not fire when the column is already categorical. -/
theorem check_with_data_df_eq (m m' : Meta) (df df' : DataFrame)
    (h : Meta.check_with_data m df = Except.ok (m', df'))
    (hfac : m.type = "factor" → m.levels = none →
      ∃ c, df.lookup m.varname = some c ∧ c.dtype = Dtype.categoryDt) :
    df' = df := by
  unfold Meta.check_with_data at h
  cases hl : df.lookup m.varname with
  | none =>
    simp only [hl] at h
    cases h
  | some c =>
    simp only [hl] at h
    by_cases h1 : m.type = "number" ∨ m.type = "currency"
    · rw [if_pos h1] at h
      split at h
      · cases h
        rfl
      · cases h
    · rw [if_neg h1] at h
      by_cases h2 : m.type = "string"
      · rw [if_pos h2] at h
        split at h
        · cases h
        · cases h
          rfl
      · rw [if_neg h2] at h
        by_cases h3 : m.type = "factor"
        · rw [if_pos h3] at h
          cases hlev : m.levels with
          | none =>
            obtain ⟨c2, hc2, hcat⟩ := hfac h3 hlev
            rw [hl] at hc2
            cases hc2
            have hinf : FactorMeta.infer_levels m df =
                ({ m with levels := some c.categories }, df) := by
              unfold FactorMeta.infer_levels
              simp only [hl]
              rw [if_pos hcat]
            simp only [hlev, hinf] at h
            split at h
            · cases h
              rfl
            · cases h
          | some lv =>
            simp only [hlev] at h
            split at h
            · cases h
              rfl
            · cases h
        · rw [if_neg h3] at h
          by_cases h4 : m.type = "href"
          · rw [if_pos h4] at h
            split at h
            · cases h
              rfl
            · cases h
          · rw [if_neg h4] at h
            cases h
            rfl

/-- `set_meta` changes only `data_frame` and `metas`; `data_frame` itself
only through the factor cast. -/
theorem set_meta_frame (tr tr2 : Trelliscope) (m : Meta)
    (h : tr.set_meta m = Except.ok tr2)
    (hfac : m.type = "factor" → m.levels = none →
      ∃ c, tr.data_frame.lookup m.varname = some c ∧ c.dtype = Dtype.categoryDt) :
    tr2.panels = tr.panels ∧ tr2.columns_to_ignore = tr.columns_to_ignore ∧
      tr2.data_frame = tr.data_frame := by
  unfold Trelliscope.set_meta at h
  simp only [Except.bind, bind] at h
  split at h
  · cases h
  · rename_i md hmd
    cases h
    refine ⟨rfl, rfl, ?_⟩
    exact check_with_data_df_eq m md.1 tr.data_frame md.2 (by
      rw [← hmd]) hfac

/-- A meta inferred by `_infer_meta_variable` with type "factor" and no
levels can only come from the categorical branch. -/
theorem infer_meta_variable_factor (panels : List (String × Panel))
    (col : Column) (n : String) (m : Meta)
    (h : inferMetaVariableP panels col n = Except.ok (some m)) :
    m.type = "factor" → m.levels = none →
      m.varname = n ∧ col.dtype = Dtype.categoryDt := by
  intro hty hlev
  unfold inferMetaVariableP at h
  cases hp : odLookup panels n with
  | some p =>
    simp only [hp, Except.bind, bind] at h
    cases hpm : PanelMeta.mk p with
    | error e =>
      simp only [hpm] at h
      cases h
    | ok m2 =>
      simp only [hpm] at h
      cases h
      rw [PanelMeta_mk_type p _ hpm] at hty
      exact absurd hty (by decide)
  | none =>
    simp only [hp] at h
    by_cases hfig : (panels.map (fun q => q.2.figure_varname)).contains (some n) = true
    · simp only [hfig, if_true] at h
      cases h
    · simp only [hfig] at h
      rw [if_neg (by simp)] at h
      by_cases hcat : col.dtype = Dtype.categoryDt
      · rw [if_pos hcat] at h
        simp only [FactorMeta.mk, mkMetaBase, Except.bind, bind] at h
        cases h
        exact ⟨rfl, hcat⟩
      · rw [if_neg hcat] at h
        by_cases hnum : is_numeric_dtype col = true
        · rw [if_pos hnum] at h
          simp only [NumberMeta.mk, mkMetaBase, Except.bind, bind] at h
          cases h
          simp at hty
        · rw [if_neg hnum] at h
          by_cases hstr : is_string_column col = true
          · rw [if_pos hstr] at h
            by_cases hrem : is_all_remote col = true
            · rw [if_pos hrem] at h
              simp only [HrefMeta.mk, mkMetaBase, Except.bind, bind] at h
              cases h
              simp at hty
            · rw [if_neg hrem] at h
              simp only [StringMeta.mk, mkMetaBase, Except.bind, bind] at h
              cases h
              simp at hty
          · rw [if_neg hstr] at h
            cases h

/-- `FactorMeta.__init__` at its defaults builds exactly `factorMetaFor`. -/
theorem FactorMeta_mk_eq (n : String) :
    FactorMeta.mk n = Except.ok (factorMetaFor n) := rfl

/-- `NumberMeta.__init__` at its defaults builds exactly `numberMetaFor`. -/
theorem NumberMeta_mk_eq (n : String) :
    NumberMeta.mk n = Except.ok (numberMetaFor n) := rfl

/-- `HrefMeta.__init__` at its defaults builds exactly `hrefMetaFor`. -/
theorem HrefMeta_mk_eq (n : String) :
    HrefMeta.mk n = Except.ok (hrefMetaFor n) := rfl

/-- `StringMeta.__init__` at its defaults builds exactly `stringMetaFor`. -/
theorem StringMeta_mk_eq (n : String) :
    StringMeta.mk n = Except.ok (stringMetaFor n) := rfl

/-- The `_infer_metas` loop records in `removed` every visited name whose
column draws the `ok none` verdict at the initial object: the threaded
object keeps its `panels` and `data_frame` across `set_meta` calls, so the
verdict is stable along the loop. -/
theorem inferMetasLoop_ignored (names : List String) :
    ∀ (tr : Trelliscope) (removed : List String) (tr2 : Trelliscope)
      (rem2 : List String),
    inferMetasLoop tr names removed = Except.ok (tr2, rem2) →
    (∀ x ∈ removed, x ∈ rem2) ∧
    ∀ n ∈ names, ∀ col, tr.data_frame.lookup n = some col →
      inferMetaVariableP tr.panels col n = Except.ok none → n ∈ rem2 := by
  induction names with
  | nil =>
    intro tr removed tr2 rem2 h
    simp only [inferMetasLoop] at h
    cases h
    exact ⟨fun x hx => hx, fun n hn => absurd hn (List.not_mem_nil n)⟩
  | cons a rest ih =>
    intro tr removed tr2 rem2 h
    simp only [inferMetasLoop] at h
    cases hl : tr.data_frame.lookup a with
    | none =>
      simp only [hl] at h
      cases h
    | some cola =>
      simp only [hl] at h
      cases hv : tr.infer_meta_variable cola a with
      | error e =>
        simp only [hv] at h
        cases h
      | ok o =>
        cases o with
        | none =>
          simp only [hv] at h
          obtain ⟨hsub, hmem⟩ := ih tr (removed ++ [a]) tr2 rem2 h
          refine ⟨fun x hx => hsub x (List.mem_append_left _ hx), ?_⟩
          intro n hn col hcol hverd
          rcases List.mem_cons.mp hn with hna | hnr
          · subst hna
            exact hsub n (List.mem_append_right _ (List.mem_singleton.mpr rfl))
          · exact hmem n hnr col hcol hverd
        | some m =>
          simp only [hv] at h
          cases hs : tr.set_meta m with
          | error e =>
            simp only [hs] at h
            cases h
          | ok trNext =>
            simp only [hs] at h
            have hfac : m.type = "factor" → m.levels = none →
                ∃ c, tr.data_frame.lookup m.varname = some c ∧
                  c.dtype = Dtype.categoryDt := by
              intro hty hlev
              obtain ⟨hvn, hcat⟩ :=
                infer_meta_variable_factor tr.panels cola a m hv hty hlev
              refine ⟨cola, ?_, hcat⟩
              rw [hvn]
              exact hl
            obtain ⟨hpan, hign, hdf⟩ := set_meta_frame tr trNext m hs hfac
            obtain ⟨hsub, hmem⟩ := ih trNext removed tr2 rem2 h
            refine ⟨hsub, ?_⟩
            intro n hn col hcol hverd
            rcases List.mem_cons.mp hn with hna | hnr
            · subst hna
              rw [hcol] at hl
              cases hl
              have hv2 : inferMetaVariableP tr.panels cola n =
                  Except.ok (some m) := hv
              rw [hverd] at hv2
              cases hv2
            · refine hmem n hnr col ?_ ?_
              · rw [hdf]
                exact hcol
              · rw [hpan]
                exact hverd

/-- C4: `_infer_meta_variable` classifies a column, testing the cases in
exactly this order: a registered panel column yields that panel's
PanelMeta; a registered panel's shadow figure column yields nothing;
otherwise a categorical dtype yields a FactorMeta, then a numeric column
a NumberMeta, then a string column an HrefMeta when every value starts
with "http" and a StringMeta otherwise; any other column yields nothing,
and `_infer_metas` records such a column (when not already covered by an
explicit meta) in `columns_to_ignore` of the object it returns. -/
theorem c4_meta_inference_classification (tr : Trelliscope) (col : Column)
    (n : String) :
    (∀ p, odLookup tr.panels n = some p → p.aspect_ratio > 0 →
      p.panel_type_str ∈ ["img", "iframe"] →
      tr.infer_meta_variable col n = Except.ok (some (panelMetaFor p))) ∧
    (odLookup tr.panels n = none →
      ((tr.panels.map (fun q => q.2.figure_varname)).contains (some n) = true →
        tr.infer_meta_variable col n = Except.ok none) ∧
      ((tr.panels.map (fun q => q.2.figure_varname)).contains (some n) = false →
        (col.dtype = Dtype.categoryDt →
          tr.infer_meta_variable col n = Except.ok (some (factorMetaFor n))) ∧
        (col.dtype ≠ Dtype.categoryDt →
          (is_numeric_dtype col = true →
            tr.infer_meta_variable col n = Except.ok (some (numberMetaFor n))) ∧
          (is_numeric_dtype col = false →
            (is_string_column col = true →
              (is_all_remote col = true →
                tr.infer_meta_variable col n =
                  Except.ok (some (hrefMetaFor n))) ∧
              (is_all_remote col = false →
                tr.infer_meta_variable col n =
                  Except.ok (some (stringMetaFor n)))) ∧
            (is_string_column col = false →
              tr.infer_meta_variable col n = Except.ok none))))) ∧
    (∀ trOut, (tr.infer_metas).2 = Except.ok trOut →
      n ∈ tr.data_frame.names → odLookup tr.metas n = none →
      tr.data_frame.lookup n = some col →
      tr.infer_meta_variable col n = Except.ok none →
      n ∈ trOut.columns_to_ignore) := by
  refine ⟨?_, ?_, ?_⟩
  · intro p hp ha ht
    unfold Trelliscope.infer_meta_variable inferMetaVariableP
    simp only [hp]
    rw [PanelMeta_mk_eq p ha ht]
    rfl
  · intro hp
    refine ⟨?_, ?_⟩
    · intro hfig
      unfold Trelliscope.infer_meta_variable inferMetaVariableP
      simp only [hp]
      rw [if_pos hfig]
    · intro hfig
      have hnfig : ¬ ((tr.panels.map (fun q => q.2.figure_varname)).contains
          (some n) = true) := by
        intro hc
        rw [hc] at hfig
        cases hfig
      refine ⟨?_, ?_⟩
      · intro hcat
        unfold Trelliscope.infer_meta_variable inferMetaVariableP
        simp only [hp]
        rw [if_neg hnfig, if_pos hcat, FactorMeta_mk_eq]
        rfl
      · intro hcat
        refine ⟨?_, ?_⟩
        · intro hnum
          unfold Trelliscope.infer_meta_variable inferMetaVariableP
          simp only [hp]
          rw [if_neg hnfig, if_neg hcat, if_pos hnum, NumberMeta_mk_eq]
          rfl
        · intro hnum
          have hnnum : ¬ (is_numeric_dtype col = true) := by simp [hnum]
          refine ⟨?_, ?_⟩
          · intro hstr
            refine ⟨?_, ?_⟩
            · intro hrem
              unfold Trelliscope.infer_meta_variable inferMetaVariableP
              simp only [hp]
              rw [if_neg hnfig, if_neg hcat, if_neg hnnum, if_pos hstr,
                if_pos hrem, HrefMeta_mk_eq]
              rfl
            · intro hrem
              have hnrem : ¬ (is_all_remote col = true) := by simp [hrem]
              unfold Trelliscope.infer_meta_variable inferMetaVariableP
              simp only [hp]
              rw [if_neg hnfig, if_neg hcat, if_neg hnnum, if_pos hstr,
                if_neg hnrem, StringMeta_mk_eq]
              rfl
          · intro hstr
            have hnstr : ¬ (is_string_column col = true) := by simp [hstr]
            unfold Trelliscope.infer_meta_variable inferMetaVariableP
            simp only [hp]
            rw [if_neg hnfig, if_neg hcat, if_neg hnnum, if_neg hnstr]
  · intro trOut hout hnn hmeta hcol hverd
    unfold Trelliscope.infer_metas at hout
    cases hloop : inferMetasLoop tr
        (tr.data_frame.names.filter (fun c => (odLookup tr.metas c).isNone))
        [] with
    | error e =>
      simp only [hloop] at hout
      cases hout
    | ok pr =>
      obtain ⟨tr2, removed⟩ := pr
      simp only [hloop] at hout
      cases hout
      have hmemfilter : n ∈ tr.data_frame.names.filter
          (fun c => (odLookup tr.metas c).isNone) :=
        List.mem_filter.mpr ⟨hnn, by rw [hmeta]; rfl⟩
      have hrm : n ∈ removed :=
        (inferMetasLoop_ignored _ tr [] tr2 removed hloop).2 n hmemfilter
          col hcol hverd
      exact List.mem_append_right _ hrm

/-- Registered panel for the C4 witness, with a shadow figure column. -/
def panelC4 : Panel :=
  { varname := "pan", aspect_ratio := 1, source := FilePanelSource true,
    panel_type_str := "img", figure_varname := some "shadow" }

/-- Panel column for the C4 witness. -/
def colPanC4 : Column :=
  { dtype := Dtype.objectDt, values := [CellValue.strV "a.png"] }

/-- Shadow figure column for the C4 witness. -/
def colShadowC4 : Column :=
  { dtype := Dtype.objectDt, values := [CellValue.figureV 0] }

/-- Categorical column for the C4 witness. -/
def colCatC4 : Column :=
  { dtype := Dtype.categoryDt, values := [CellValue.strV "a"],
    categories := ["a", "b"] }

/-- Numeric column for the C4 witness. -/
def colNumC4 : Column :=
  { dtype := Dtype.numericDt, values := [CellValue.numV 1] }

/-- All-remote string column for the C4 witness. -/
def colUrlC4 : Column :=
  { dtype := Dtype.objectDt, values := [CellValue.strV "http://x"] }

/-- Plain string column for the C4 witness. -/
def colStrC4 : Column :=
  { dtype := Dtype.objectDt, values := [CellValue.strV "a"] }

/-- Unclassifiable object column for the C4 witness. -/
def colObjC4 : Column :=
  { dtype := Dtype.objectDt, values := [CellValue.objV 0] }

/-- Orchestrator for the C4 witness. -/
def trC4 : Trelliscope :=
  { data_frame := { cols := [("pan", colPanC4), ("shadow", colShadowC4),
      ("cat", colCatC4), ("num", colNumC4), ("url", colUrlC4),
      ("s", colStrC4), ("obj", colObjC4)] },
    panels := [("pan", panelC4)] }

/-- The object `_infer_metas` returns on `trC4`. -/
def trOutC4 : Trelliscope := ((trC4.infer_metas).2).toOption.getD trC4

/-- Witness for C4: each classification branch at a concrete column, and
the unclassifiable column recorded in `columns_to_ignore`. -/
theorem c4_meta_inference_classification_witness :
    trC4.infer_meta_variable colPanC4 "pan" =
        Except.ok (some (panelMetaFor panelC4)) ∧
    trC4.infer_meta_variable colShadowC4 "shadow" = Except.ok none ∧
    trC4.infer_meta_variable colCatC4 "cat" =
        Except.ok (some (factorMetaFor "cat")) ∧
    trC4.infer_meta_variable colNumC4 "num" =
        Except.ok (some (numberMetaFor "num")) ∧
    trC4.infer_meta_variable colUrlC4 "url" =
        Except.ok (some (hrefMetaFor "url")) ∧
    trC4.infer_meta_variable colStrC4 "s" =
        Except.ok (some (stringMetaFor "s")) ∧
    trC4.infer_meta_variable colObjC4 "obj" = Except.ok none ∧
    "obj" ∈ trOutC4.columns_to_ignore :=
  ⟨(c4_meta_inference_classification trC4 colPanC4 "pan").1 panelC4 rfl
      (by norm_num [panelC4]) (by decide),
   ((c4_meta_inference_classification trC4 colShadowC4 "shadow").2.1 rfl).1 rfl,
   (((c4_meta_inference_classification trC4 colCatC4 "cat").2.1 rfl).2 rfl).1
      rfl,
   ((((c4_meta_inference_classification trC4 colNumC4 "num").2.1 rfl).2
      rfl).2 (by decide)).1 rfl,
   ((((((c4_meta_inference_classification trC4 colUrlC4 "url").2.1 rfl).2
      rfl).2 (by decide)).2 rfl).1 rfl).1 rfl,
   ((((((c4_meta_inference_classification trC4 colStrC4 "s").2.1 rfl).2
      rfl).2 (by decide)).2 rfl).1 rfl).2 rfl,
   (((((c4_meta_inference_classification trC4 colObjC4 "obj").2.1 rfl).2
      rfl).2 (by decide)).2 rfl).2 rfl,
   (c4_meta_inference_classification trC4 colObjC4 "obj").2.2 trOutC4 (by rfl)
      (by decide) rfl rfl rfl⟩
